import Mathlib

/-!
# invoice-maker-saas: the invoice form controller and the ad click tracker

A shallow embedding of `core/static/js/invoice_calculator.js` and
`core/static/js/ad_tracker.js`.

* JavaScript numbers are `JSNum`: `NaN`, the two infinities, and the finite
  binary64 values, each held as the rational it denotes.  Every arithmetic
  operation and every conversion from a string rounds its exact result to
  binary64 with `roundDouble` (nearest, ties to even, overflow to an infinity,
  gradual underflow).  The sign of zero is not modelled: `+`, `-`, `*`, `/ 100`,
  `||`, `toFixed` and `String` do not tell `+0` from `-0` except in the sign of a
  zero result.
* The DOM is a page record: whether `#item-formset` is present, the `.item-row`
  elements in document order, each a list of the descendant elements the
  selectors of the scripts can match, and the page-level fields addressed by id.
-/

set_option autoImplicit false

namespace InvoiceMaker

/-! ## JavaScript numbers -/

/-- A JavaScript number: `NaN`, `+Infinity` / `-Infinity` (`neg` is the sign), or
a finite value, held as the rational it denotes. -/
inductive JSNum where
  | nan : JSNum
  | inf (neg : Bool) : JSNum
  | fin (q : ℚ) : JSNum
deriving DecidableEq

/-- The integer nearest to `x`, the even one when `x` lies halfway between two. -/
def roundHalfEven (x : ℚ) : ℤ :=
  if x - ⌊x⌋ < 1 / 2 then ⌊x⌋
  else if 1 / 2 < x - ⌊x⌋ then ⌊x⌋ + 1
  else if ⌊x⌋ % 2 = 0 then ⌊x⌋ else ⌊x⌋ + 1

/-- The exponent `e` of the binary64 binade of a magnitude `a`:
`2 ^ e ≤ a < 2 ^ (e + 1)`, and `-1022` for the subnormal magnitudes below. -/
def binadeExp (a : ℚ) : ℤ :=
  max (Int.log 2 a) (-1022)

/-- The binary64 value of a real result `q`: the magnitude is rounded to the
nearest multiple of the unit in the last place of its binade (53 significant
bits, ties to even), and a magnitude that rounds to `2 ^ 1024` or more becomes an
infinity. -/
def roundDouble (q : ℚ) : JSNum :=
  if (2 : ℚ) ^ 1024 ≤ (roundHalfEven (|q| / 2 ^ (binadeExp |q| - 52)) : ℚ) * 2 ^ (binadeExp |q| - 52)
  then JSNum.inf (decide (q < 0))
  else JSNum.fin (if q < 0
    then -((roundHalfEven (|q| / 2 ^ (binadeExp |q| - 52)) : ℚ) * 2 ^ (binadeExp |q| - 52))
    else (roundHalfEven (|q| / 2 ^ (binadeExp |q| - 52)) : ℚ) * 2 ^ (binadeExp |q| - 52))

namespace JSNum

/-- The JavaScript sum `x + y` of two numbers. -/
def add : JSNum → JSNum → JSNum
  | nan, _ => nan
  | _, nan => nan
  | inf a, inf b => if a = b then inf a else nan
  | inf a, fin _ => inf a
  | fin _, inf b => inf b
  | fin x, fin y => roundDouble (x + y)

/-- The JavaScript difference `x - y` of two numbers. -/
def sub : JSNum → JSNum → JSNum
  | nan, _ => nan
  | _, nan => nan
  | inf a, inf b => if a = b then nan else inf a
  | inf a, fin _ => inf a
  | fin _, inf b => inf (!b)
  | fin x, fin y => roundDouble (x - y)

/-- The JavaScript product `x * y` of two numbers. -/
def mul : JSNum → JSNum → JSNum
  | nan, _ => nan
  | _, nan => nan
  | inf a, inf b => inf (a != b)
  | inf a, fin y => if y = 0 then nan else inf (a != decide (y < 0))
  | fin x, inf b => if x = 0 then nan else inf (decide (x < 0) != b)
  | fin x, fin y => roundDouble (x * y)

/-- The JavaScript quotient `x / y` of two numbers (a zero divisor is taken as
`+0`; the scripts divide by the literal 100 only). -/
def div : JSNum → JSNum → JSNum
  | nan, _ => nan
  | _, nan => nan
  | inf _, inf _ => nan
  | inf a, fin y => inf (a != decide (y < 0))
  | fin _, inf _ => fin 0
  | fin x, fin y =>
    if y = 0 then (if x = 0 then nan else inf (decide (x < 0))) else roundDouble (x / y)

/-- The negation `-x` of a number. -/
def neg : JSNum → JSNum
  | nan => nan
  | inf b => inf (!b)
  | fin q => fin (-q)

/-- ToBoolean of a number: `NaN` and zero are falsy, everything else is truthy. -/
def truthy : JSNum → Bool
  | nan => false
  | inf _ => true
  | fin q => decide (q ≠ 0)

/-- The JavaScript expression `x || d` on numbers. -/
def orElse (x d : JSNum) : JSNum :=
  if x.truthy then x else d

end JSNum

/-! ## Strings: white space, digits, `parseFloat`, `parseInt`, `String`, `toFixed` -/

/-- The code points `TrimString` removes: ECMAScript WhiteSpace and LineTerminator. -/
def isJSWhiteSpace (c : Char) : Bool :=
  let n := c.toNat
  n = 0x09 || n = 0x0A || n = 0x0B || n = 0x0C || n = 0x0D || n = 0x20 || n = 0xA0 ||
  n = 0x1680 || (0x2000 ≤ n && n ≤ 0x200A) || n = 0x2028 || n = 0x2029 ||
  n = 0x202F || n = 0x205F || n = 0x3000 || n = 0xFEFF

/-- The characters `0` to `9`, the class `\d` of a regular expression and the
DecimalDigit of the numeric grammars. -/
def isDecimalDigit (c : Char) : Bool :=
  decide (48 ≤ c.toNat ∧ c.toNat ≤ 57)

/-- The value of a decimal digit character. -/
def digitVal (c : Char) : Nat :=
  c.toNat - 48

/-- The natural number written by a list of decimal digits. -/
def digitsToNat (ds : List Char) : Nat :=
  ds.foldl (fun a c => 10 * a + digitVal c) 0

/-- The value of the longest ExponentPart (`e` or `E`, an optional sign, one or
more digits) that starts `cs`; 0 when `cs` starts with no ExponentPart. -/
def parseExponent (cs : List Char) : Int :=
  if cs.head? = some 'e' ∨ cs.head? = some 'E' then
    if cs.tail.head? = some '-' then
      if cs.tail.tail.takeWhile isDecimalDigit = [] then 0
      else -(digitsToNat (cs.tail.tail.takeWhile isDecimalDigit) : Int)
    else if cs.tail.head? = some '+' then
      if cs.tail.tail.takeWhile isDecimalDigit = [] then 0
      else (digitsToNat (cs.tail.tail.takeWhile isDecimalDigit) : Int)
    else
      if cs.tail.takeWhile isDecimalDigit = [] then 0
      else (digitsToNat (cs.tail.takeWhile isDecimalDigit) : Int)
  else 0

/-- The Number value of the longest StrUnsignedDecimalLiteral that starts `cs`
(`Infinity`, `digits . digits? exponent?`, `. digits exponent?` or
`digits exponent?`), rounded to binary64; `NaN` when there is none. -/
def parseUnsignedDecimal (cs : List Char) : JSNum :=
  if "Infinity".toList.isPrefixOf cs then JSNum.inf false
  else if (cs.dropWhile isDecimalDigit).head? = some '.' then
    if cs.takeWhile isDecimalDigit = [] ∧
        (cs.dropWhile isDecimalDigit).tail.takeWhile isDecimalDigit = [] then JSNum.nan
    else roundDouble
      ((digitsToNat (cs.takeWhile isDecimalDigit ++
          (cs.dropWhile isDecimalDigit).tail.takeWhile isDecimalDigit) : ℚ) *
        10 ^ (parseExponent ((cs.dropWhile isDecimalDigit).tail.dropWhile isDecimalDigit) -
          (((cs.dropWhile isDecimalDigit).tail.takeWhile isDecimalDigit).length : Int)))
  else
    if cs.takeWhile isDecimalDigit = [] then JSNum.nan
    else roundDouble ((digitsToNat (cs.takeWhile isDecimalDigit) : ℚ) *
      10 ^ parseExponent (cs.dropWhile isDecimalDigit))

/-- The global `parseFloat` on a string: leading white space is skipped, a sign is
read, then the longest prefix that is a StrUnsignedDecimalLiteral is evaluated;
`NaN` when no prefix is one. -/
def parseFloatChars (cs : List Char) : JSNum :=
  if (cs.dropWhile isJSWhiteSpace).head? = some '-' then
    (parseUnsignedDecimal (cs.dropWhile isJSWhiteSpace).tail).neg
  else if (cs.dropWhile isJSWhiteSpace).head? = some '+' then
    parseUnsignedDecimal (cs.dropWhile isJSWhiteSpace).tail
  else parseUnsignedDecimal (cs.dropWhile isJSWhiteSpace)

/-- The global `parseFloat` applied to what jQuery `.val()` returned: the value of
the first matched element, or `undefined` (`none`) for an empty selection, which
`parseFloat` first converts to the string `"undefined"`. -/
def parseFloat : Option String → JSNum
  | some s => parseFloatChars s.toList
  | none => parseFloatChars "undefined".toList

/-- The value of a digit of radix 16, `none` for any other character. -/
def hexDigitVal (c : Char) : Option Nat :=
  if isDecimalDigit c then some (c.toNat - 48)
  else if 'a' ≤ c ∧ c ≤ 'f' then some (c.toNat - 87)
  else if 'A' ≤ c ∧ c ≤ 'F' then some (c.toNat - 55)
  else none

/-- The unsigned part of `parseInt` with no radix argument: radix 16 after a
`0x` / `0X` prefix and radix 10 otherwise; the longest prefix of digits of the
radix is evaluated, `none` (`NaN`) when it is empty. -/
def parseIntUnsigned (r : List Char) : Option Nat :=
  if r.take 2 = ['0', 'x'] ∨ r.take 2 = ['0', 'X'] then
    if ((r.drop 2).takeWhile (fun c => (hexDigitVal c).isSome)) = [] then none
    else some (((r.drop 2).takeWhile (fun c => (hexDigitVal c).isSome)).foldl
      (fun a c => 16 * a + (hexDigitVal c).getD 0) 0)
  else
    if r.takeWhile isDecimalDigit = [] then none
    else some (digitsToNat (r.takeWhile isDecimalDigit))

/-- The global `parseInt` on a list of characters: leading white space is
skipped, a sign is read, then the unsigned part, and the integer is rounded to
binary64. -/
def parseIntChars (cs : List Char) : JSNum :=
  if (cs.dropWhile isJSWhiteSpace).head? = some '-' then
    match parseIntUnsigned (cs.dropWhile isJSWhiteSpace).tail with
    | some n => roundDouble (-(n : ℚ))
    | none => JSNum.nan
  else if (cs.dropWhile isJSWhiteSpace).head? = some '+' then
    match parseIntUnsigned (cs.dropWhile isJSWhiteSpace).tail with
    | some n => roundDouble (n : ℚ)
    | none => JSNum.nan
  else
    match parseIntUnsigned (cs.dropWhile isJSWhiteSpace) with
    | some n => roundDouble (n : ℚ)
    | none => JSNum.nan

/-- The global `parseInt` applied to what jQuery `.val()` returned (`none` is the
`undefined` of an empty selection). -/
def parseInt : Option String → JSNum
  | some s => parseIntChars s.toList
  | none => parseIntChars "undefined".toList

/-- The decimal digits of a natural number. -/
def natToChars (n : Nat) : List Char :=
  Nat.toDigits 10 n

/-- The decimal numeral of an integer: a `-` for a negative one, then the digits
of its magnitude. -/
def intToChars : Int → List Char
  | Int.ofNat n => natToChars n
  | Int.negSucc n => '-' :: natToChars (n + 1)

/-- A list of digits without its trailing zeros. -/
def stripZeros (ds : List Char) : List Char :=
  (ds.reverse.dropWhile (fun c => c = '0')).reverse

/-- A `k`-digit integer `s` such that `s * 10 ^ (n0 - k)` rounds to the binary64
value `x`, when there is one: of the two integers around `x / 10 ^ (n0 - k)` the
one that denotes `x`, the closer one when both do, the even one on a tie. -/
def shortestAt (x : ℚ) (n0 : ℤ) (k : Nat) : Option Nat :=
  let scale : ℚ := 10 ^ (n0 - (k : ℤ))
  let lo : Nat := ⌊x / scale⌋.toNat
  let okLo : Bool := decide (roundDouble ((lo : ℚ) * scale) = JSNum.fin x)
  let okHi : Bool := decide (roundDouble (((lo + 1 : Nat) : ℚ) * scale) = JSNum.fin x)
  if okLo && okHi then
    if x - (lo : ℚ) * scale < ((lo + 1 : Nat) : ℚ) * scale - x then some lo
    else if ((lo + 1 : Nat) : ℚ) * scale - x < x - (lo : ℚ) * scale then some (lo + 1)
    else if lo % 2 = 0 then some lo else some (lo + 1)
  else if okLo then some lo
  else if okHi then some (lo + 1)
  else none

/-- The search of `Number::toString` for the least number of digits `k`, from `k`
upwards, that denote `x`: the integer found and its number of digits. Seventeen
digits always denote a binary64 value. -/
def shortestFrom (x : ℚ) (n0 : ℤ) : Nat → Nat → Nat × Nat
  | 0, k => (⌊x / 10 ^ (n0 - (k : ℤ))⌋.toNat, k)
  | fuel + 1, k =>
    match shortestAt x n0 k with
    | some s => (s, k)
    | none => shortestFrom x n0 fuel (k + 1)

/-- The layout of `Number::toString` for the digits `digits` of a positive number
with decimal exponent `n` (the value is `0.digits * 10 ^ n`): plain digits with
zeros appended, a decimal point inside, a leading `0.` with zeros, or exponent
notation when `n` is above 21 or below -5. -/
def formatDigits (digits : List Char) (n : ℤ) : List Char :=
  if (digits.length : ℤ) ≤ n ∧ n ≤ 21 then
    digits ++ List.replicate (n - (digits.length : ℤ)).toNat '0'
  else if 0 < n ∧ n ≤ 21 then digits.take n.toNat ++ '.' :: digits.drop n.toNat
  else if -6 < n ∧ n ≤ 0 then '0' :: '.' :: (List.replicate (-n).toNat '0' ++ digits)
  else
    (if digits.length = 1 then digits else digits.take 1 ++ '.' :: digits.drop 1) ++
      'e' :: (if n - 1 < 0 then '-' else '+') :: natToChars (n - 1).natAbs

/-- `Number::toString` on a positive binary64 value: the fewest digits that
denote it, laid out by `formatDigits`. For an integer below `2 ^ 53` these are its
decimal digits, which the first branch writes directly. -/
def positiveToChars (x : ℚ) : List Char :=
  if (⌊x⌋ : ℚ) = x ∧ x < 2 ^ 53 then natToChars ⌊x⌋.toNat
  else
    formatDigits
      (stripZeros (natToChars (shortestFrom x (Int.log 10 x + 1) 17 1).1))
      (if (shortestFrom x (Int.log 10 x + 1) 17 1).1 =
          10 ^ (shortestFrom x (Int.log 10 x + 1) 17 1).2
        then Int.log 10 x + 1 + 1 else Int.log 10 x + 1)

/-- The string `String(x)` of a number, as a template literal or jQuery `.val(x)`
produces it (`Number::toString`). -/
def numberToChars : JSNum → List Char
  | JSNum.nan => "NaN".toList
  | JSNum.inf neg => if neg then "-Infinity".toList else "Infinity".toList
  | JSNum.fin q =>
    if q = 0 then ['0']
    else if q < 0 then '-' :: positiveToChars (-q)
    else positiveToChars q

/-- The digits of `toFixed(2)` for the scaled integer `n` (the integer nearest to
100 times the magnitude): the decimal digits of `n`, left-padded with zeros to
three digits, with the point before the last two. -/
def fixedDigits (n : Nat) : String :=
  let m := natToChars n
  let m := if m.length ≤ 2 then List.replicate (3 - m.length) '0' ++ m else m
  String.mk (m.take (m.length - 2) ++ '.' :: m.drop (m.length - 2))

/-- `Number.prototype.toFixed(2)`: for a magnitude below `10 ^ 21` the scaled
integer is the one nearest to 100 times the exact binary64 value, the larger one
on a tie; from `10 ^ 21` on the result is that of `Number::toString`. -/
def toFixed2 : JSNum → String
  | JSNum.nan => "NaN"
  | JSNum.inf neg => if neg then "-Infinity" else "Infinity"
  | JSNum.fin q =>
    (if q < 0 then "-" else "") ++
      (if (10 : ℚ) ^ 21 ≤ |q| then String.mk (positiveToChars |q|)
       else fixedDigits ⌊|q| * 100 + 1 / 2⌋.toNat)

/-! ## The DOM of the invoice form -/

/-- The element kinds the selectors of the scripts tell apart. -/
inductive Tag where
  | input : Tag
  | select : Tag
  | textarea : Tag
  | label : Tag
  | other : Tag
deriving DecidableEq

/-- The `type` attribute of an input, as far as the selectors `[type="hidden"]`
and `[type="checkbox"]` tell it apart. -/
inductive InputType where
  | hidden : InputType
  | checkbox : InputType
  | other : InputType
deriving DecidableEq

/-- A descendant element of a row: its tag, its `type`, `name`, `id` and `for`
attributes (`none` when absent), whether it has class `line-total`, its current
value and its checked state. -/
structure Elem where
  tag : Tag
  type : InputType
  name : Option String
  id : Option String
  htmlFor : Option String
  lineTotal : Bool
  value : String
  checked : Bool
deriving DecidableEq

/-- An `.item-row` element: whether it has class `text-muted`, and its descendant
elements in document order. -/
structure Row where
  muted : Bool
  elems : List Elem
deriving DecidableEq

/-- The invoice form page. `hasFormset` tells whether the element
`#item-formset` is present; `rows` are the `.item-row` elements in document
order, and when `#item-formset` is present they are its last children, so an
element appended to that container becomes the last row. The other fields are the
values of `#id_tax_rate`, `#id_discount_amount` and `#id_items-TOTAL_FORMS` and
the texts of the four display elements, each `none` when the element is absent. -/
structure Page where
  hasFormset : Bool
  rows : List Row
  taxRate : Option String
  discountAmount : Option String
  totalForms : Option String
  subtotalDisplay : Option String
  taxDisplay : Option String
  discountDisplay : Option String
  totalDisplay : Option String
deriving DecidableEq

/-- The attribute selector `[name*="pat"]`: the attribute is present and its
value contains `pat`. -/
def nameContains (pat : String) (e : Elem) : Bool :=
  match e.name with
  | some v => decide (pat.toList <:+: v.toList)
  | none => false

/-- The selector `input[type="checkbox"][name*="DELETE"]`. -/
def isDeleteCheckbox (e : Elem) : Bool :=
  decide (e.tag = Tag.input) && decide (e.type = InputType.checkbox) && nameContains "DELETE" e

/-- The selector `input[name*="quantity"]`. -/
def isQuantityInput (e : Elem) : Bool :=
  decide (e.tag = Tag.input) && nameContains "quantity" e

/-- The selector `input[name*="unit_price"]`. -/
def isUnitPriceInput (e : Elem) : Bool :=
  decide (e.tag = Tag.input) && nameContains "unit_price" e

/-- jQuery `.val()` as a getter on the descendants of `row` matching `sel`: the
value of the first one, `none` (`undefined`) when none matches. -/
def findVal (sel : Elem → Bool) (row : Row) : Option String :=
  (row.elems.find? sel).map Elem.value

/-- The statement `$row.find('.line-total').val(v)`: every descendant with class
`line-total` gets the value `v`. -/
def setLineTotal (v : String) (row : Row) : Row :=
  { row with elems := row.elems.map (fun e => if e.lineTotal then { e with value := v } else e) }

/-- The test `isDeleted` of `calculateTotals`: `.is(':checked')` on the delete
checkboxes of the row holds when at least one of them is checked. -/
def isDeleted (row : Row) : Bool :=
  row.elems.any (fun e => isDeleteCheckbox e && e.checked)

/-- The local `quantity` of `calculateTotals` for a row: `parseFloat($qtyInput.val()) || 0`. -/
def rowQuantity (row : Row) : JSNum :=
  (parseFloat (findVal isQuantityInput row)).orElse (JSNum.fin 0)

/-- The local `unitPrice` of `calculateTotals` for a row: `parseFloat($priceInput.val()) || 0`. -/
def rowUnitPrice (row : Row) : JSNum :=
  (parseFloat (findVal isUnitPriceInput row)).orElse (JSNum.fin 0)

/-! ## `calculateTotals` -/

/-- The state of the `.each` loop of `calculateTotals`: the local `subtotal` and
the rows already visited, as the loop left them. -/
structure LoopState where
  subtotal : JSNum
  done : List Row

/-- One call of the `.each` callback of `calculateTotals` on `row`. -/
def eachRow (st : LoopState) (row : Row) : LoopState :=
  if !isDeleted row then
    let quantity := rowQuantity row
    let unitPrice := rowUnitPrice row
    let lineTotal := quantity.mul unitPrice
    { subtotal := st.subtotal.add lineTotal,
      done := st.done ++ [setLineTotal (toFixed2 lineTotal) row] }
  else
    { subtotal := st.subtotal, done := st.done ++ [setLineTotal "0.00" row] }

/-- What a run of `calculateTotals` leaves: the page, and the locals `subtotal`,
`taxRate`, `taxAmount`, `discountAmount` and `total`. -/
structure Totals where
  page : Page
  subtotal : JSNum
  taxRate : JSNum
  taxAmount : JSNum
  discountAmount : JSNum
  total : JSNum

/-- The function `calculateTotals` with its locals: the loop over the rows, the
tax rate and the discount read from their fields, the tax amount and the total,
and the four display elements written with `toFixed(2)`. -/
def calculateTotalsRun (p : Page) : Totals :=
  let st := p.rows.foldl eachRow { subtotal := JSNum.fin 0, done := [] }
  let subtotal := st.subtotal
  let taxRate := (parseFloat p.taxRate).orElse (JSNum.fin 0)
  let discountAmount := (parseFloat p.discountAmount).orElse (JSNum.fin 0)
  let taxAmount := (subtotal.mul taxRate).div (JSNum.fin 100)
  let total := (subtotal.add taxAmount).sub discountAmount
  { page :=
      { p with
        rows := st.done,
        subtotalDisplay := p.subtotalDisplay.map (fun _ => toFixed2 subtotal),
        taxDisplay := p.taxDisplay.map (fun _ => toFixed2 taxAmount),
        discountDisplay := p.discountDisplay.map (fun _ => toFixed2 discountAmount),
        totalDisplay := p.totalDisplay.map (fun _ => toFixed2 total) },
    subtotal := subtotal,
    taxRate := taxRate,
    taxAmount := taxAmount,
    discountAmount := discountAmount,
    total := total }

/-- The function `calculateTotals` as the page transformer it is. -/
def calculateTotals (p : Page) : Page :=
  (calculateTotalsRun p).page

/-! ## The add-item handler -/

/-- Whether `cs` starts with a match of the regular expression `-\d+-`; the
result is what follows the match. The greedy `\d+` takes the whole run of
digits, and no shorter run can be followed by `-`. -/
def matchIndexAt : List Char → Option (List Char)
  | [] => none
  | c :: r =>
    if c = '-' ∧ r.takeWhile isDecimalDigit ≠ [] then
      match r.dropWhile isDecimalDigit with
      | d :: post => if d = '-' then some post else none
      | [] => none
    else none

/-- The call `val.replace(/-\d+-/, repl)` for a replacement `repl` free of `$`:
the leftmost match is replaced by `repl`, a string with no match is returned
unchanged. -/
def replaceIndex (repl : List Char) : List Char → List Char
  | [] => []
  | c :: r =>
    match matchIndexAt (c :: r) with
    | some post => repl ++ post
    | none => c :: replaceIndex repl r

/-- The template literal `-${formCount}-`. -/
def indexSegment (formCount : JSNum) : List Char :=
  '-' :: numberToChars formCount ++ ['-']

/-- The expression `val.replace(/-\d+-/, "-" + formCount + "-")` on an attribute value. -/
def rewriteIndex (formCount : JSNum) (val : String) : String :=
  String.mk (replaceIndex (indexSegment formCount) val.toList)

/-- The guarded update of one attribute in the add-item handler: an attribute
that is absent or empty is left alone, any other gets `rewriteIndex`. -/
def rewriteAttr (formCount : JSNum) : Option String → Option String
  | some v => if v = "" then some v else some (rewriteIndex formCount v)
  | none => none

/-- Lines 79 to 82 of the handler on the cloned row: the values of the inputs that
are not hidden, of the selects and of the textareas are set to the empty string,
the checkboxes are unchecked, the line-total fields are set to `"0.00"` and the
class `text-muted` is removed. -/
def clearTemplate (row : Row) : Row :=
  let elems := row.elems.map (fun e =>
    if (e.tag = Tag.input ∧ e.type ≠ InputType.hidden) ∨ e.tag = Tag.select ∨ e.tag = Tag.textarea
    then { e with value := "" } else e)
  let elems := elems.map (fun e =>
    if e.tag = Tag.input ∧ e.type = InputType.checkbox then { e with checked := false } else e)
  let elems := elems.map (fun e => if e.lineTotal then { e with value := "0.00" } else e)
  { muted := false, elems := elems }

/-- Lines 85 to 101 of the handler: `name` and `id` of every input, select and
textarea of the clone, and `for` of every label, are rewritten to the index
`formCount`; no other attribute of any element is touched. -/
def renumber (formCount : JSNum) (row : Row) : Row :=
  let elems := row.elems.map (fun e =>
    if e.tag = Tag.input ∨ e.tag = Tag.select ∨ e.tag = Tag.textarea
    then { e with name := rewriteAttr formCount e.name, id := rewriteAttr formCount e.id } else e)
  let elems := elems.map (fun e =>
    if e.tag = Tag.label then { e with htmlFor := rewriteAttr formCount e.htmlFor } else e)
  { row with elems := elems }

/-- The state of the form controller: the page and the closure variable
`formCount`, a JavaScript number. -/
structure FormState where
  page : Page
  formCount : JSNum

/-- The `$(document).ready` callback as far as it sets `formCount`:
`parseInt($('#id_items-TOTAL_FORMS').val()) || 1`. -/
def ready (p : Page) : FormState :=
  { page := p, formCount := (parseInt p.totalForms).orElse (JSNum.fin 1) }

/-- The row the handler builds from the first row: the clone, cleared and renumbered. -/
def newRow (formCount : JSNum) (first : Row) : Row :=
  renumber formCount (clearTemplate first)

/-- The click handler of `#add-item-btn` up to the call of `calculateTotals`: the
first row is cloned, cleared, renumbered with `formCount` and appended to
`#item-formset` (nothing is appended when the page has no row or no
`#item-formset`), `formCount` is incremented and written to the hidden
total-forms field. -/
def appendClone (s : FormState) : FormState :=
  let rows :=
    match s.page.rows with
    | first :: _ =>
      if s.page.hasFormset then s.page.rows ++ [newRow s.formCount first] else s.page.rows
    | [] => s.page.rows
  let formCount := s.formCount.add (JSNum.fin 1)
  { page := { s.page with
      rows := rows,
      totalForms := s.page.totalForms.map (fun _ => String.mk (numberToChars formCount)) },
    formCount := formCount }

/-- The click handler of `#add-item-btn`: `appendClone`, then `calculateTotals`. -/
def addItemClick (s : FormState) : FormState :=
  { page := calculateTotals (appendClone s).page,
    formCount := (appendClone s).formCount }

/-! ## The ad click tracker -/

/-- An HTTP request issued through `fetch`: the method, the path, the two headers
and the fields of the URL-encoded body in order. -/
structure Request where
  method : String
  url : String
  contentType : String
  csrfToken : String
  body : List (String × String)
deriving DecidableEq

/-- The string a value becomes as a header or a body field: `undefined` or
`null` (`none`) becomes a literal word, here the one of `undefined`. -/
def fieldString : Option String → String
  | some s => s
  | none => "undefined"

/-- The expression `v || d` on a value that is a string, `undefined` or `null`:
`d` when `v` is absent or the empty string. -/
def strOr (v : Option String) (d : Option String) : Option String :=
  match v with
  | some s => if s = "" then d else some s
  | none => d

/-- The function `trackAdClick`: the request it hands to `fetch`. `csrftoken` is
what `getCookie('csrftoken')` returned (`none` is `null`); an absent `adId`,
`placement` or `targetUrl` is `undefined`; an absent `invoiceId` is `null`. -/
def trackAdClick (csrftoken : Option String) (adId placement targetUrl : Option String)
    (context : String) (invoiceId : Option String) : Request :=
  { method := "POST",
    url := "/track-ad/",
    contentType := "application/x-www-form-urlencoded",
    csrfToken := match csrftoken with
      | some t => t
      | none => "null",
    body := [("ad_id", fieldString adId), ("placement", fieldString placement),
      ("target_url", fieldString targetUrl), ("context", context),
      ("invoice_id", (strOr invoiceId (some "")).getD "")] }

/-- The global `trackPdfDownloadAd`: one `trackAdClick` call with fixed arguments,
the context tag given and the invoice identifier left to its default `null`. -/
def trackPdfDownloadAd (csrftoken : Option String) : Request :=
  trackAdClick csrftoken (some "pdf-download-ad-001") (some "pdf_download")
    (some "https://example.com/pdf-tools") "before_pdf_download" none

/-- An `.ad-container` element: its `data-ad-id`, `data-placement` and
`data-invoice-id` attributes as `dataset` reads them (`none` is `undefined`). -/
structure AdContainer where
  adId : Option String
  placement : Option String
  invoiceId : Option String
deriving DecidableEq

/-- An `.ad-link` element: its `href` property (`none` when the element has
none) and the result of `closest('.ad-container')`. -/
structure AdLink where
  href : Option String
  container : Option AdContainer
deriving DecidableEq

/-- The click listener the `DOMContentLoaded` handler attaches to an ad link: the
requests one click issues. -/
def adLinkClick (csrftoken : Option String) (link : AdLink) : List Request :=
  match link.container with
  | some container =>
    [trackAdClick csrftoken container.adId container.placement link.href "ad_click"
      (strOr container.invoiceId none)]
  | none => []

/-! ## Sample pages -/

/-- An input element of a formset row, named and identified the way the form
library of the server does it. -/
def fieldInput (type : InputType) (name value : String) (checked lineTotal : Bool) : Elem :=
  { tag := Tag.input, type := type, name := some name, id := some ("id_" ++ name),
    htmlFor := none, lineTotal := lineTotal, value := value, checked := checked }

/-- A row of index 0 with a visible quantity input, a visible unit-price input, a
line-total field and a delete checkbox. -/
def sampleRow (quantity unitPrice : String) (deleted : Bool) : Row :=
  { muted := deleted,
    elems := [fieldInput InputType.other "items-0-quantity" quantity false false,
      fieldInput InputType.other "items-0-unit_price" unitPrice false false,
      fieldInput InputType.other "items-0-line_total" "" false true,
      fieldInput InputType.checkbox "items-0-DELETE" "on" deleted false] }

/-- A page with `#item-formset`, the given rows, tax rate and discount, a
total-forms field and the four display elements. -/
def samplePage (rows : List Row) (taxRate discount totalForms : String) : Page :=
  { hasFormset := true, rows := rows, taxRate := some taxRate,
    discountAmount := some discount, totalForms := some totalForms,
    subtotalDisplay := some "", taxDisplay := some "", discountDisplay := some "",
    totalDisplay := some "" }

/-- A row of a saved line item, flagged deleted: the hidden `id` input holds the
key `42` of the item. -/
def savedRow : Row :=
  { muted := true,
    elems := [fieldInput InputType.hidden "items-0-id" "42" false false,
      fieldInput InputType.other "items-0-quantity" "2" false false,
      fieldInput InputType.other "items-0-unit_price" "5" false false,
      fieldInput InputType.other "items-0-line_total" "0.00" false true,
      fieldInput InputType.checkbox "items-0-DELETE" "on" true false] }

/-- A row whose quantity and unit price are carried by hidden inputs, with a
label that has an `id` and a `for` with an embedded index. -/
def fixedRow : Row :=
  { muted := false,
    elems := [
      { tag := Tag.label, type := InputType.other, name := none, id := some "label-0-quantity",
        htmlFor := some "id_items-0-quantity", lineTotal := false, value := "",
        checked := false },
      fieldInput InputType.hidden "items-0-quantity" "2" false false,
      fieldInput InputType.hidden "items-0-unit_price" "5" false false,
      fieldInput InputType.other "items-0-line_total" "10.00" false true,
      fieldInput InputType.checkbox "items-0-DELETE" "on" false false] }

/-- The row the add-item handler appends, with `formCount` 1, to a page whose
first row is `savedRow`, as the final `calculateTotals` leaves it. -/
def clonedSavedRow : Row :=
  { muted := false,
    elems := [fieldInput InputType.hidden "items-1-id" "42" false false,
      fieldInput InputType.other "items-1-quantity" "" false false,
      fieldInput InputType.other "items-1-unit_price" "" false false,
      fieldInput InputType.other "items-1-line_total" "0.00" false true,
      fieldInput InputType.checkbox "items-1-DELETE" "" false false] }

/-- The row the add-item handler appends, with `formCount` 1, to a page whose
first row is `fixedRow`, as the final `calculateTotals` leaves it. -/
def clonedFixedRow : Row :=
  { muted := false,
    elems := [
      { tag := Tag.label, type := InputType.other, name := none, id := some "label-0-quantity",
        htmlFor := some "id_items-1-quantity", lineTotal := false, value := "",
        checked := false },
      fieldInput InputType.hidden "items-1-quantity" "2" false false,
      fieldInput InputType.hidden "items-1-unit_price" "5" false false,
      fieldInput InputType.other "items-1-line_total" "10.00" false true,
      fieldInput InputType.checkbox "items-1-DELETE" "" false false] }

/-- The values of the line-total fields of the rows of a page, row by row. -/
def lineTotals (p : Page) : List (List String) :=
  p.rows.map (fun r => (r.elems.filter (fun e => e.lineTotal)).map Elem.value)

/-! ## Auxiliary definitions for the statements -/

/-- The local `lineTotal` of `calculateTotals` for a row that is not deleted. -/
def rowLineTotal (row : Row) : JSNum :=
  (rowQuantity row).mul (rowUnitPrice row)

/-- The row as one call of the `.each` callback leaves it. -/
def rowAfter (row : Row) : Row :=
  if isDeleted row then setLineTotal "0.00" row
  else setLineTotal (toFixed2 (rowLineTotal row)) row

/-- The rational value of a finite number, 0 for `NaN` and the infinities. -/
def JSNum.toRat : JSNum → ℚ
  | JSNum.fin q => q
  | _ => 0

/-- The list `s` has a positional index pattern after the prefix `pre`: a run
`ds` of one or more decimal digits between two `-`, followed by `post`. -/
def IndexPatternAt (s pre ds post : List Char) : Prop :=
  s = pre ++ '-' :: ds ++ '-' :: post ∧ ds ≠ [] ∧ ∀ c ∈ ds, isDecimalDigit c = true

/-- Whether `u` starts with an unsigned decimal literal: `Infinity`, a digit, or a
point followed by a digit. -/
def startsNumeral (u : List Char) : Bool :=
  "Infinity".toList.isPrefixOf u ||
    (match u with
      | c :: t =>
        isDecimalDigit c ||
          (decide (c = '.') && (match t with
            | d :: _ => isDecimalDigit d
            | [] => false))
      | [] => false)

/-- Whether a string has a numeric prefix: after its leading white space and one
optional sign it starts with an unsigned decimal literal. -/
def hasNumericPrefix (cs : List Char) : Bool :=
  if (cs.dropWhile isJSWhiteSpace).head? = some '-' ∨
      (cs.dropWhile isJSWhiteSpace).head? = some '+' then
    startsNumeral (cs.dropWhile isJSWhiteSpace).tail
  else startsNumeral (cs.dropWhile isJSWhiteSpace)

/-- A value read by `.val()` has no numeric prefix: the field is absent, or its
string has none. -/
def noNumericPrefix : Option String → Bool
  | some s => !hasNumericPrefix s.toList
  | none => true

/-! ## Lemmas on rounding -/

theorem roundHalfEven_intCast (N : ℤ) : roundHalfEven (N : ℚ) = N := by
  simp [roundHalfEven]

theorem roundDouble_ne_nan (q : ℚ) : roundDouble q ≠ JSNum.nan := by
  unfold roundDouble
  split <;> simp

theorem roundDouble_of_exact (q : ℚ) (N : ℤ)
    (hN : |q| / 2 ^ (binadeExp |q| - 52) = (N : ℚ)) (hlt : |q| < 2 ^ 1024) :
    roundDouble q = JSNum.fin q := by
  have hu : (2 : ℚ) ^ (binadeExp |q| - 52) ≠ 0 := zpow_ne_zero _ (by norm_num)
  have hv : (roundHalfEven (|q| / 2 ^ (binadeExp |q| - 52)) : ℚ) *
      2 ^ (binadeExp |q| - 52) = |q| := by
    rw [hN, roundHalfEven_intCast, ← hN, div_mul_cancel₀ _ hu]
  unfold roundDouble
  rw [hv, if_neg (not_le.mpr hlt)]
  congr 1
  by_cases h : q < 0
  · rw [if_pos h, abs_of_neg h, neg_neg]
  · rw [if_neg h, abs_of_nonneg (not_lt.mp h)]

theorem binadeExp_natCast (n : ℕ) : binadeExp (n : ℚ) = (Nat.log 2 n : ℤ) := by
  rw [binadeExp, Int.log_natCast]
  exact max_eq_left (by omega)

theorem roundDouble_natCast (n : ℕ) (h : n ≤ 2 ^ 53) : roundDouble (n : ℚ) = JSNum.fin (n : ℚ) := by
  have habs : |(n : ℚ)| = (n : ℚ) := abs_of_nonneg (Nat.cast_nonneg n)
  have hlt : |(n : ℚ)| < 2 ^ 1024 := by
    rw [habs]
    have h1 : (n : ℚ) ≤ 2 ^ 53 := by exact_mod_cast h
    have h2 : (2 : ℚ) ^ 53 < 2 ^ 1024 := by norm_num
    exact lt_of_le_of_lt h1 h2
  by_cases h0 : n = 0
  · subst h0
    exact roundDouble_of_exact _ 0 (by simp) hlt
  have hpos : 0 < n := Nat.pos_of_ne_zero h0
  have hlog : 2 ^ Nat.log 2 n ≤ n := Nat.pow_log_le_self 2 h0
  have hle53 : Nat.log 2 n ≤ 53 := by
    by_contra hc
    have h54 : 2 ^ 54 ≤ 2 ^ Nat.log 2 n := Nat.pow_le_pow_right (by norm_num) (by omega)
    have : (2 : ℕ) ^ 54 ≤ 2 ^ 53 := le_trans h54 (le_trans hlog h)
    norm_num at this
  by_cases h52 : Nat.log 2 n ≤ 52
  · refine roundDouble_of_exact _ ((n * 2 ^ (52 - Nat.log 2 n) : ℕ) : ℤ) ?_ hlt
    rw [habs, binadeExp_natCast]
    have he : ((Nat.log 2 n : ℤ) - 52) = -((52 - Nat.log 2 n : ℕ) : ℤ) := by omega
    rw [he, zpow_neg, zpow_natCast, div_inv_eq_mul]
    push_cast
    ring
  · have he : Nat.log 2 n = 53 := by omega
    have hn : n = 2 ^ 53 := by
      rw [he] at hlog
      exact le_antisymm h hlog
    refine roundDouble_of_exact _ ((2 ^ 52 : ℕ) : ℤ) ?_ hlt
    rw [habs, binadeExp_natCast, he, hn]
    norm_num

theorem roundDouble_zero : roundDouble 0 = JSNum.fin 0 := by
  simpa using roundDouble_natCast 0 (by norm_num)

theorem roundDouble_roundHalfEven_bounds (x : ℚ) (N : ℤ) (h1 : (N : ℚ) - 1 / 2 < x)
    (h2 : x < (N : ℚ) + 1 / 2) : roundHalfEven x = N := by
  unfold roundHalfEven
  by_cases hf : ⌊x⌋ = N
  · have hx : x - (N : ℚ) < 1 / 2 := by linarith
    rw [hf, if_pos hx]
  · have hfl : ⌊x⌋ = N - 1 := by
      rw [Int.floor_eq_iff]
      constructor
      · push_cast; linarith
      · by_contra hc
        push_neg at hc
        apply hf
        rw [Int.floor_eq_iff]
        constructor
        · push_cast at hc; linarith
        · linarith
    have hx1 : ¬ (x - ((N - 1 : ℤ) : ℚ) < 1 / 2) := by
      push_cast; linarith
    have hx2 : 1 / 2 < x - ((N - 1 : ℤ) : ℚ) := by
      push_cast; linarith
    rw [hfl, if_neg hx1, if_pos hx2]
    ring

theorem roundHalfEven_tie (N : ℤ) (hev : N % 2 = 0) :
    roundHalfEven ((N : ℚ) + 1 / 2) = N := by
  have hfl : ⌊(N : ℚ) + 1 / 2⌋ = N := by
    rw [Int.floor_eq_iff]
    constructor <;> linarith
  unfold roundHalfEven
  rw [hfl]
  have h1 : ¬ ((N : ℚ) + 1 / 2 - (N : ℚ) < 1 / 2) := by
    intro h; linarith
  have h2 : ¬ ((1 : ℚ) / 2 < (N : ℚ) + 1 / 2 - (N : ℚ)) := by
    intro h; linarith
  rw [if_neg h1, if_neg h2, if_pos hev]

theorem roundHalfEven_tie_up (N : ℤ) (hev : N % 2 = 0) :
    roundHalfEven ((N : ℚ) - 1 / 2) = N := by
  have hfl : ⌊(N : ℚ) - 1 / 2⌋ = N - 1 := by
    rw [Int.floor_eq_iff]
    constructor <;> push_cast <;> linarith
  unfold roundHalfEven
  rw [hfl]
  have h1 : ¬ ((N : ℚ) - 1 / 2 - ((N - 1 : ℤ) : ℚ) < 1 / 2) := by
    push_cast; intro h; linarith
  have h2 : ¬ ((1 : ℚ) / 2 < (N : ℚ) - 1 / 2 - ((N - 1 : ℤ) : ℚ)) := by
    push_cast; intro h; linarith
  have h3 : ¬ ((N - 1) % 2 = 0) := by omega
  rw [if_neg h1, if_neg h2, if_neg h3]
  ring

theorem roundDouble_of_bounds (q : ℚ) (e N : ℤ) (hq : 0 < q) (he : -1022 ≤ e)
    (h1 : (2 : ℚ) ^ e ≤ q) (h2 : q < 2 ^ (e + 1))
    (hN1 : (N : ℚ) - 1 / 2 < q / 2 ^ (e - 52)) (hN2 : q / 2 ^ (e - 52) < (N : ℚ) + 1 / 2)
    (hfin : (N : ℚ) * 2 ^ (e - 52) < 2 ^ 1024) :
    roundDouble q = JSNum.fin ((N : ℚ) * 2 ^ (e - 52)) := by
  have habs : |q| = q := abs_of_pos hq
  have hlog : Int.log 2 q = e := by
    apply le_antisymm
    · have := (Int.lt_zpow_iff_log_lt (b := 2) (by norm_num) hq (x := e + 1)).mp
        (by exact_mod_cast h2)
      omega
    · exact (Int.zpow_le_iff_le_log (b := 2) (by norm_num) hq).mp (by exact_mod_cast h1)
  have hb : binadeExp |q| = e := by
    rw [habs, binadeExp, hlog]
    exact max_eq_left he
  unfold roundDouble
  rw [hb, habs, roundDouble_roundHalfEven_bounds _ N hN1 hN2, if_neg (not_le.mpr hfin),
    if_neg (not_lt.mpr hq.le)]

theorem roundDouble_of_tie (q : ℚ) (e N : ℤ) (hq : 0 < q) (he : -1022 ≤ e)
    (h1 : (2 : ℚ) ^ e ≤ q) (h2 : q < 2 ^ (e + 1))
    (hN : q / 2 ^ (e - 52) = (N : ℚ) + 1 / 2) (hev : N % 2 = 0)
    (hfin : (N : ℚ) * 2 ^ (e - 52) < 2 ^ 1024) :
    roundDouble q = JSNum.fin ((N : ℚ) * 2 ^ (e - 52)) := by
  have habs : |q| = q := abs_of_pos hq
  have hlog : Int.log 2 q = e := by
    apply le_antisymm
    · have := (Int.lt_zpow_iff_log_lt (b := 2) (by norm_num) hq (x := e + 1)).mp
        (by exact_mod_cast h2)
      omega
    · exact (Int.zpow_le_iff_le_log (b := 2) (by norm_num) hq).mp (by exact_mod_cast h1)
  have hb : binadeExp |q| = e := by
    rw [habs, binadeExp, hlog]
    exact max_eq_left he
  unfold roundDouble
  rw [hb, habs, hN, roundHalfEven_tie N hev, if_neg (not_le.mpr hfin),
    if_neg (not_lt.mpr hq.le)]

theorem roundDouble_of_tie_up (q : ℚ) (e N : ℤ) (hq : 0 < q) (he : -1022 ≤ e)
    (h1 : (2 : ℚ) ^ e ≤ q) (h2 : q < 2 ^ (e + 1))
    (hN : q / 2 ^ (e - 52) = (N : ℚ) - 1 / 2) (hev : N % 2 = 0)
    (hfin : (N : ℚ) * 2 ^ (e - 52) < 2 ^ 1024) :
    roundDouble q = JSNum.fin ((N : ℚ) * 2 ^ (e - 52)) := by
  have habs : |q| = q := abs_of_pos hq
  have hlog : Int.log 2 q = e := by
    apply le_antisymm
    · have := (Int.lt_zpow_iff_log_lt (b := 2) (by norm_num) hq (x := e + 1)).mp
        (by exact_mod_cast h2)
      omega
    · exact (Int.zpow_le_iff_le_log (b := 2) (by norm_num) hq).mp (by exact_mod_cast h1)
  have hb : binadeExp |q| = e := by
    rw [habs, binadeExp, hlog]
    exact max_eq_left he
  unfold roundDouble
  rw [hb, habs, hN, roundHalfEven_tie_up N hev, if_neg (not_le.mpr hfin),
    if_neg (not_lt.mpr hq.le)]

/-! ## Lemmas on numbers and their strings -/

theorem JSNum.orElse_nan (d : JSNum) : JSNum.nan.orElse d = d := by
  simp [JSNum.orElse, JSNum.truthy]

theorem JSNum.orElse_fin_zero (q : ℚ) : (JSNum.fin q).orElse (JSNum.fin 0) = JSNum.fin q := by
  by_cases h : q = 0 <;> simp [JSNum.orElse, JSNum.truthy, h]

theorem JSNum.mul_natCast (a b : ℕ) (h : a * b ≤ 2 ^ 53) :
    (JSNum.fin (a : ℚ)).mul (JSNum.fin (b : ℚ)) = JSNum.fin ((a * b : ℕ) : ℚ) := by
  have := roundDouble_natCast (a * b) h
  simpa [JSNum.mul] using this

theorem JSNum.add_natCast (a b : ℕ) (h : a + b ≤ 2 ^ 53) :
    (JSNum.fin (a : ℚ)).add (JSNum.fin (b : ℚ)) = JSNum.fin ((a + b : ℕ) : ℚ) := by
  have := roundDouble_natCast (a + b) h
  simpa [JSNum.add] using this

theorem numberToChars_natCast (n : ℕ) (h : n < 2 ^ 53) :
    numberToChars (JSNum.fin (n : ℚ)) = natToChars n := by
  by_cases h0 : n = 0
  · subst h0
    simp only [numberToChars, Nat.cast_zero, if_true]
    decide
  · have hq : ¬ ((n : ℚ) = 0) := by exact_mod_cast h0
    have hneg : ¬ ((n : ℚ) < 0) := not_lt.mpr (Nat.cast_nonneg n)
    have hlt : (n : ℚ) < 2 ^ 53 := by exact_mod_cast h
    simp [numberToChars, hq, hneg, positiveToChars, hlt]

theorem numberToChars_intCast (k : ℤ) (h : |k| < 2 ^ 53) :
    numberToChars (JSNum.fin (k : ℚ)) = intToChars k := by
  cases k with
  | ofNat n =>
    have hn : n < 2 ^ 53 := by
      have : |(n : ℤ)| = (n : ℤ) := abs_of_nonneg (Int.natCast_nonneg n)
      simp only [Int.ofNat_eq_coe, this] at h
      exact_mod_cast h
    simpa [intToChars] using numberToChars_natCast n hn
  | negSucc n =>
    have hn : n + 1 < 2 ^ 53 := by
      have : |Int.negSucc n| = ((n + 1 : ℕ) : ℤ) := by
        rw [Int.negSucc_eq, abs_neg]
        exact abs_of_nonneg (by positivity)
      rw [this] at h
      exact_mod_cast h
    have hcast : ((Int.negSucc n : ℤ) : ℚ) = -((n + 1 : ℕ) : ℚ) := by
      rw [Int.negSucc_eq]; push_cast; ring
    have hpos : (0 : ℚ) < ((n + 1 : ℕ) : ℚ) := by exact_mod_cast Nat.succ_pos n
    have h1 : ¬ (-((n + 1 : ℕ) : ℚ) = 0) := by linarith
    have h2 : -((n + 1 : ℕ) : ℚ) < 0 := by linarith
    have hlt : ((n + 1 : ℕ) : ℚ) < 2 ^ 53 := by exact_mod_cast hn
    rw [hcast]
    simp only [numberToChars, if_neg h1, if_pos h2, neg_neg, intToChars, positiveToChars]
    rw [if_pos ⟨by simp, hlt⟩]
    simp

theorem parseFloat_of_digits (s : String) (m : ℕ) (e : ℤ) (q : ℚ)
    (h : parseFloat (some s) = roundDouble ((m : ℚ) * 10 ^ e)) (hq : (m : ℚ) * 10 ^ e = q) :
    parseFloat (some s) = roundDouble q := by
  rw [h, hq]

theorem toFixed2_of_bounds (q : ℚ) (n : ℕ) (h0 : 0 ≤ q)
    (hb : q < 10 ^ 21) (h1 : (n : ℚ) ≤ q * 100 + 1 / 2) (h2 : q * 100 + 1 / 2 < n + 1) :
    toFixed2 (JSNum.fin q) = fixedDigits n := by
  have hfl : ⌊|q| * 100 + 1 / 2⌋ = (n : ℤ) := by
    rw [abs_of_nonneg h0, Int.floor_eq_iff]
    exact ⟨by exact_mod_cast h1, by exact_mod_cast h2⟩
  have hnb : ¬ ((10 : ℚ) ^ 21 ≤ |q|) := by
    rw [abs_of_nonneg h0]; exact not_le.mpr hb
  have hneg : ¬ q < 0 := not_lt.mpr h0
  simp only [toFixed2, hfl, if_neg hnb, if_neg hneg, Int.toNat_ofNat]
  simp

theorem toFixed2_zero : toFixed2 (JSNum.fin 0) = "0.00" := by
  rw [toFixed2_of_bounds 0 0 le_rfl (by norm_num) (by norm_num) (by norm_num)]
  decide

theorem toFixed2_ten : toFixed2 (JSNum.fin 10) = "10.00" := by
  rw [toFixed2_of_bounds 10 1000 (by norm_num) (by norm_num) (by norm_num) (by norm_num)]
  decide

theorem parseFloat_empty : parseFloat (some "") = JSNum.nan := by
  decide

theorem parseFloat_undefined : parseFloat none = JSNum.nan := by
  decide

theorem parseFloat_natural (s : String) (n : ℕ) (hn : n ≤ 2 ^ 53)
    (h : parseFloat (some s) = roundDouble ((n : ℚ) * 10 ^ (0 : ℤ))) :
    parseFloat (some s) = JSNum.fin (n : ℚ) := by
  rw [h, zpow_zero, mul_one, roundDouble_natCast n hn]

theorem parseFloat_two : parseFloat (some "2") = JSNum.fin 2 := by
  simpa using parseFloat_natural "2" 2 (by norm_num) rfl

theorem parseFloat_three : parseFloat (some "3") = JSNum.fin 3 := by
  simpa using parseFloat_natural "3" 3 (by norm_num) rfl

theorem parseFloat_five : parseFloat (some "5") = JSNum.fin 5 := by
  simpa using parseFloat_natural "5" 5 (by norm_num) rfl

theorem parseFloat_ten : parseFloat (some "10") = JSNum.fin 10 := by
  simpa using parseFloat_natural "10" 10 (by norm_num) rfl

theorem parseFloat_one : parseFloat (some "1") = JSNum.fin 1 := by
  simpa using parseFloat_natural "1" 1 (by norm_num) rfl

theorem parseFloat_numeric_prefix : parseFloat (some "12abc") = JSNum.fin 12 := by
  simpa using parseFloat_natural "12abc" 12 (by norm_num) rfl

/-! ## Lemmas on the loop of `calculateTotals` -/

theorem foldl_eachRow (rows : List Row) (st : LoopState) :
    rows.foldl eachRow st =
      { subtotal := ((rows.filter (fun r => !isDeleted r)).map rowLineTotal).foldl
          JSNum.add st.subtotal,
        done := st.done ++ rows.map rowAfter } := by
  induction rows generalizing st with
  | nil => simp
  | cons r rs ih =>
    rw [List.foldl_cons, ih]
    by_cases h : isDeleted r = true
    · simp [eachRow, rowAfter, h]
    · simp [eachRow, rowAfter, h, rowLineTotal]

theorem calculateTotalsRun_subtotal (p : Page) :
    (calculateTotalsRun p).subtotal =
      ((p.rows.filter (fun r => !isDeleted r)).map rowLineTotal).foldl
        JSNum.add (JSNum.fin 0) := by
  simp [calculateTotalsRun, foldl_eachRow]

theorem calculateTotalsRun_rows (p : Page) :
    (calculateTotalsRun p).page.rows = p.rows.map rowAfter := by
  simp [calculateTotalsRun, foldl_eachRow]

theorem rowQuantity_sampleRow (q p : String) (d : Bool) :
    rowQuantity (sampleRow q p d) = (parseFloat (some q)).orElse (JSNum.fin 0) := by
  rfl

theorem rowUnitPrice_sampleRow (q p : String) (d : Bool) :
    rowUnitPrice (sampleRow q p d) = (parseFloat (some p)).orElse (JSNum.fin 0) := by
  rfl

theorem isDeleted_sampleRow (q p : String) (d : Bool) :
    isDeleted (sampleRow q p d) = d := by
  cases d <;> rfl

theorem rowQuantity_two (p : String) (d : Bool) :
    rowQuantity (sampleRow "2" p d) = JSNum.fin 2 := by
  rw [rowQuantity_sampleRow, parseFloat_two, JSNum.orElse_fin_zero]

theorem rowUnitPrice_three (q : String) (d : Bool) :
    rowUnitPrice (sampleRow q "3" d) = JSNum.fin 3 := by
  rw [rowUnitPrice_sampleRow, parseFloat_three, JSNum.orElse_fin_zero]

theorem lineProducts_nonneg (l : List Row)
    (hnat : ∀ r ∈ l, ∃ a b : ℕ, rowQuantity r = JSNum.fin a ∧ rowUnitPrice r = JSNum.fin b) :
    0 ≤ (l.map (fun r => (rowQuantity r).toRat * (rowUnitPrice r).toRat)).sum := by
  apply List.sum_nonneg
  intro x hx
  obtain ⟨r, hr, rfl⟩ := List.mem_map.mp hx
  obtain ⟨a, b, ha, hb⟩ := hnat r hr
  simp only [ha, hb, JSNum.toRat]
  positivity

theorem foldl_add_naturals (l : List Row) (acc : ℕ)
    (hnat : ∀ r ∈ l, ∃ a b : ℕ, rowQuantity r = JSNum.fin a ∧ rowUnitPrice r = JSNum.fin b)
    (hsum : (acc : ℚ) + (l.map (fun r => (rowQuantity r).toRat * (rowUnitPrice r).toRat)).sum
      ≤ 2 ^ 53) :
    (l.map rowLineTotal).foldl JSNum.add (JSNum.fin (acc : ℚ)) =
      JSNum.fin ((acc : ℚ) +
        (l.map (fun r => (rowQuantity r).toRat * (rowUnitPrice r).toRat)).sum) := by
  induction l generalizing acc with
  | nil => simp
  | cons r l ih =>
    obtain ⟨a, b, ha, hb⟩ := hnat r (List.mem_cons_self r l)
    have hrest := lineProducts_nonneg l (fun r' hr' => hnat r' (List.mem_cons_of_mem r hr'))
    have hf : (rowQuantity r).toRat * (rowUnitPrice r).toRat = ((a * b : ℕ) : ℚ) := by
      simp [ha, hb, JSNum.toRat]
    simp only [List.map_cons, List.sum_cons, List.foldl_cons] at hsum ⊢
    rw [hf] at hsum ⊢
    have hacc : (acc : ℚ) ≥ 0 := Nat.cast_nonneg acc
    have hab : a * b ≤ 2 ^ 53 := by
      have : ((a * b : ℕ) : ℚ) ≤ 2 ^ 53 := by linarith
      exact_mod_cast this
    have hsumab : acc + a * b ≤ 2 ^ 53 := by
      have : ((acc + a * b : ℕ) : ℚ) ≤ 2 ^ 53 := by push_cast; push_cast at hsum; linarith
      exact_mod_cast this
    have hline : rowLineTotal r = JSNum.fin ((a * b : ℕ) : ℚ) := by
      rw [rowLineTotal, ha, hb, JSNum.mul_natCast a b hab]
    rw [hline, JSNum.add_natCast acc (a * b) hsumab,
      ih (acc + a * b) (fun r' hr' => hnat r' (List.mem_cons_of_mem r hr'))
        (by push_cast; push_cast at hsum; linarith)]
    congr 1
    push_cast
    ring

/-! ## Binary64 checks -/

theorem roundDouble_of_double (e N : ℤ) (he : -1022 ≤ e)
    (h1 : (2 : ℚ) ^ e ≤ (N : ℚ) * 2 ^ (e - 52)) (h2 : (N : ℚ) * 2 ^ (e - 52) < 2 ^ (e + 1))
    (hfin : (N : ℚ) * 2 ^ (e - 52) < 2 ^ 1024) :
    roundDouble ((N : ℚ) * 2 ^ (e - 52)) = JSNum.fin ((N : ℚ) * 2 ^ (e - 52)) := by
  have hpos : (0 : ℚ) < (N : ℚ) * 2 ^ (e - 52) :=
    lt_of_lt_of_le (zpow_pos (by norm_num) e) h1
  have hu : (2 : ℚ) ^ (e - 52) ≠ 0 := zpow_ne_zero _ (by norm_num)
  have hdiv : (N : ℚ) * 2 ^ (e - 52) / 2 ^ (e - 52) = (N : ℚ) := mul_div_cancel_right₀ _ hu
  exact roundDouble_of_bounds _ e N hpos he h1 h2 (by rw [hdiv]; linarith)
    (by rw [hdiv]; linarith) hfin

theorem parseFloat_2005 :
    parseFloat (some "2.005") = JSNum.fin (4514858626438922 * 2 ^ (-51 : ℤ)) := by
  have h : parseFloat (some "2.005") =
      roundDouble (((2005 : ℕ) : ℚ) * 10 ^ ((0 : ℤ) - ((3 : ℕ) : ℤ))) := rfl
  rw [h]
  have := roundDouble_of_bounds (((2005 : ℕ) : ℚ) * 10 ^ ((0 : ℤ) - ((3 : ℕ) : ℤ))) 1
    4514858626438922 (by norm_num) (by norm_num) (by norm_num) (by norm_num)
    (by norm_num) (by norm_num) (by norm_num)
  simpa using this

theorem mul_three_2005 :
    (JSNum.fin 3).mul (JSNum.fin (4514858626438922 * 2 ^ (-51 : ℤ))) =
      JSNum.fin (6772287939658383 * 2 ^ (-50 : ℤ)) := by
  have := roundDouble_of_bounds (3 * (4514858626438922 * 2 ^ (-51 : ℤ))) 2
    6772287939658383 (by norm_num) (by norm_num) (by norm_num) (by norm_num)
    (by norm_num) (by norm_num) (by norm_num)
  simpa [JSNum.mul] using this

theorem toFixed2_601 : toFixed2 (JSNum.fin (6772287939658383 * 2 ^ (-50 : ℤ))) = "6.01" := by
  rw [toFixed2_of_bounds _ 601 (by norm_num) (by norm_num) (by norm_num) (by norm_num)]
  decide

/-- The line total of quantity 3 and unit price 2.005 is shown as `"6.01"`: the
product of the binary64 values lies below 6.015. -/
theorem lineTotal_three_by_2005 :
    lineTotals (calculateTotals (samplePage [sampleRow "3" "2.005" false] "0" "0" "1")) =
      [["6.01"]] := by
  have hq : rowQuantity (sampleRow "3" "2.005" false) = JSNum.fin 3 := by
    rw [rowQuantity_sampleRow, parseFloat_three, JSNum.orElse_fin_zero]
  have hp : rowUnitPrice (sampleRow "3" "2.005" false) =
      JSNum.fin (4514858626438922 * 2 ^ (-51 : ℤ)) := by
    rw [rowUnitPrice_sampleRow, parseFloat_2005, JSNum.orElse_fin_zero]
  have hl : rowLineTotal (sampleRow "3" "2.005" false) =
      JSNum.fin (6772287939658383 * 2 ^ (-50 : ℤ)) := by
    rw [rowLineTotal, hq, hp, mul_three_2005]
  have hd : isDeleted (sampleRow "3" "2.005" false) = false := rfl
  have hrows : (calculateTotals (samplePage [sampleRow "3" "2.005" false] "0" "0" "1")).rows =
      [setLineTotal "6.01" (sampleRow "3" "2.005" false)] := by
    show (calculateTotalsRun _).page.rows = _
    rw [calculateTotalsRun_rows]
    show [rowAfter (sampleRow "3" "2.005" false)] = _
    rw [rowAfter, if_neg (by simp [hd]), hl, toFixed2_601]
  rw [lineTotals, hrows]
  decide

theorem parseFloat_201 :
    parseFloat (some "20.1") = JSNum.fin (5657647031884186 * 2 ^ (-48 : ℤ)) := by
  have h : parseFloat (some "20.1") =
      roundDouble (((201 : ℕ) : ℚ) * 10 ^ ((0 : ℤ) - ((1 : ℕ) : ℤ))) := rfl
  rw [h]
  have := roundDouble_of_bounds (((201 : ℕ) : ℚ) * 10 ^ ((0 : ℤ) - ((1 : ℕ) : ℤ))) 4
    5657647031884186 (by norm_num) (by norm_num) (by norm_num) (by norm_num)
    (by norm_num) (by norm_num) (by norm_num)
  simpa using this

theorem rowLineTotal_one_by_201 :
    rowLineTotal (sampleRow "1" "20.1" false) =
      JSNum.fin (5657647031884186 * 2 ^ (-48 : ℤ)) := by
  have hq : rowQuantity (sampleRow "1" "20.1" false) = JSNum.fin 1 := by
    rw [rowQuantity_sampleRow, parseFloat_one, JSNum.orElse_fin_zero]
  have hp : rowUnitPrice (sampleRow "1" "20.1" false) =
      JSNum.fin (5657647031884186 * 2 ^ (-48 : ℤ)) := by
    rw [rowUnitPrice_sampleRow, parseFloat_201, JSNum.orElse_fin_zero]
  rw [rowLineTotal, hq, hp]
  have := roundDouble_of_double 4 5657647031884186 (by norm_num) (by norm_num) (by norm_num)
    (by norm_num)
  simpa [JSNum.mul] using this

theorem subtotal_one_by_201 :
    (calculateTotalsRun (samplePage [sampleRow "1" "20.1" false] "5" "0" "1")).subtotal =
      JSNum.fin (5657647031884186 * 2 ^ (-48 : ℤ)) := by
  have hd : isDeleted (sampleRow "1" "20.1" false) = false := rfl
  have hadd : (JSNum.fin 0).add (JSNum.fin (5657647031884186 * 2 ^ (-48 : ℤ))) =
      JSNum.fin (5657647031884186 * 2 ^ (-48 : ℤ)) := by
    have := roundDouble_of_double 4 5657647031884186 (by norm_num) (by norm_num) (by norm_num)
      (by norm_num)
    simpa [JSNum.add] using this
  rw [calculateTotalsRun_subtotal]
  simp only [samplePage, List.filter_cons, hd, Bool.not_false, if_true, List.filter_nil,
    List.map_cons, List.map_nil, List.foldl_cons, List.foldl_nil, rowLineTotal_one_by_201, hadd]

theorem taxAmount_of_201_at_five :
    ((JSNum.fin (5657647031884186 * 2 ^ (-48 : ℤ))).mul (JSNum.fin 5)).div (JSNum.fin 100) =
      JSNum.fin (4526117625507348 * 2 ^ (-52 : ℤ)) := by
  have hmul : (JSNum.fin (5657647031884186 * 2 ^ (-48 : ℤ))).mul (JSNum.fin 5) =
      JSNum.fin (201 / 2) := by
    have := roundDouble_of_tie (5657647031884186 * 2 ^ (-48 : ℤ) * 5) 6
      7072058789855232 (by norm_num) (by norm_num) (by norm_num) (by norm_num)
      (by norm_num) (by norm_num) (by norm_num)
    simp only [JSNum.mul, this]
    congr 1
    norm_num
  have hdiv : (JSNum.fin (201 / 2)).div (JSNum.fin 100) =
      JSNum.fin (4526117625507348 * 2 ^ (-52 : ℤ)) := by
    have := roundDouble_of_bounds ((201 / 2 : ℚ) / 100) 0
      4526117625507348 (by norm_num) (by norm_num) (by norm_num) (by norm_num)
      (by norm_num) (by norm_num) (by norm_num)
    have h100 : ¬ ((100 : ℚ) = 0) := by norm_num
    simp only [JSNum.div, if_neg h100]
    simpa using this
  rw [hmul, hdiv]

theorem toFixed2_tax_of_201 :
    toFixed2 (JSNum.fin (4526117625507348 * 2 ^ (-52 : ℤ))) = "1.00" := by
  rw [toFixed2_of_bounds _ 100 (by norm_num) (by norm_num) (by norm_num) (by norm_num)]
  decide

/-- The subtotal of quantity 3 at unit price 0.1 is the binary64 product
0.30000000000000004, not 3/10. -/
theorem subtotal_three_by_tenth :
    (calculateTotalsRun (samplePage [sampleRow "3" "0.1" false] "0" "0" "1")).subtotal =
        JSNum.fin (5404319552844596 * 2 ^ (-54 : ℤ)) ∧
      (5404319552844596 * 2 ^ (-54 : ℤ) : ℚ) ≠ 3 / 10 := by
  have hd : isDeleted (sampleRow "3" "0.1" false) = false := rfl
  have hq : rowQuantity (sampleRow "3" "0.1" false) = JSNum.fin 3 := by
    rw [rowQuantity_sampleRow, parseFloat_three, JSNum.orElse_fin_zero]
  have hparse : parseFloat (some "0.1") = JSNum.fin (7205759403792794 * 2 ^ (-56 : ℤ)) := by
    have h : parseFloat (some "0.1") =
        roundDouble (((1 : ℕ) : ℚ) * 10 ^ ((0 : ℤ) - ((1 : ℕ) : ℤ))) := rfl
    rw [h]
    have := roundDouble_of_bounds (((1 : ℕ) : ℚ) * 10 ^ ((0 : ℤ) - ((1 : ℕ) : ℤ))) (-4)
      7205759403792794 (by norm_num) (by norm_num) (by norm_num) (by norm_num)
      (by norm_num) (by norm_num) (by norm_num)
    simpa using this
  have hp : rowUnitPrice (sampleRow "3" "0.1" false) =
      JSNum.fin (7205759403792794 * 2 ^ (-56 : ℤ)) := by
    rw [rowUnitPrice_sampleRow, hparse, JSNum.orElse_fin_zero]
  have hl : rowLineTotal (sampleRow "3" "0.1" false) =
      JSNum.fin (5404319552844596 * 2 ^ (-54 : ℤ)) := by
    rw [rowLineTotal, hq, hp]
    have := roundDouble_of_tie_up (3 * (7205759403792794 * 2 ^ (-56 : ℤ))) (-2)
      5404319552844596 (by norm_num) (by norm_num) (by norm_num) (by norm_num)
      (by norm_num) (by norm_num) (by norm_num)
    simpa [JSNum.mul] using this
  have hadd : (JSNum.fin 0).add (JSNum.fin (5404319552844596 * 2 ^ (-54 : ℤ))) =
      JSNum.fin (5404319552844596 * 2 ^ (-54 : ℤ)) := by
    have := roundDouble_of_double (-2) 5404319552844596 (by norm_num) (by norm_num)
      (by norm_num) (by norm_num)
    simpa [JSNum.add] using this
  refine ⟨?_, by norm_num⟩
  rw [calculateTotalsRun_subtotal]
  simp only [samplePage, List.filter_cons, hd, Bool.not_false, if_true, List.filter_nil,
    List.map_cons, List.map_nil, List.foldl_cons, List.foldl_nil, hl, hadd]

/-! ## Claims on `calculateTotals` -/

/-- C1: the subtotal `calculateTotals` computes is the sum, taken in row order
from zero with the addition and multiplication of JavaScript numbers, of
quantity × unitPrice over exactly the rows whose delete checkbox is unchecked;
taking a row whose delete checkbox is checked out of the page does not change the
subtotal, whatever the row holds; and when the quantities and unit prices of the
unchecked rows are natural numbers whose products sum to at most `2 ^ 53`, no
rounding occurs and the subtotal is that sum. -/
theorem subtotal_is_sum_over_live_rows (p : Page) :
    (calculateTotalsRun p).subtotal =
        ((p.rows.filter (fun r => !isDeleted r)).map
          (fun r => (rowQuantity r).mul (rowUnitPrice r))).foldl JSNum.add (JSNum.fin 0) ∧
      (∀ pre row post, p.rows = pre ++ row :: post → isDeleted row = true →
        (calculateTotalsRun p).subtotal =
          (calculateTotalsRun { p with rows := pre ++ post }).subtotal) ∧
      ((∀ r ∈ p.rows, isDeleted r = false →
          ∃ a b : ℕ, rowQuantity r = JSNum.fin a ∧ rowUnitPrice r = JSNum.fin b) →
        ((p.rows.filter (fun r => !isDeleted r)).map
            (fun r => (rowQuantity r).toRat * (rowUnitPrice r).toRat)).sum ≤ 2 ^ 53 →
        (calculateTotalsRun p).subtotal =
          JSNum.fin (((p.rows.filter (fun r => !isDeleted r)).map
            (fun r => (rowQuantity r).toRat * (rowUnitPrice r).toRat)).sum)) := by
  refine ⟨calculateTotalsRun_subtotal p, ?_, ?_⟩
  · intro pre row post hrows hdel
    rw [calculateTotalsRun_subtotal, calculateTotalsRun_subtotal, hrows]
    simp [List.filter_append, List.filter_cons, hdel]
  · intro hnat hsum
    rw [calculateTotalsRun_subtotal]
    have hnat' : ∀ r ∈ p.rows.filter (fun r => !isDeleted r),
        ∃ a b : ℕ, rowQuantity r = JSNum.fin a ∧ rowUnitPrice r = JSNum.fin b := by
      intro r hr
      rw [List.mem_filter] at hr
      exact hnat r hr.1 (by simpa using hr.2)
    have := foldl_add_naturals (p.rows.filter (fun r => !isDeleted r)) 0 hnat'
      (by simpa using hsum)
    simpa using this

/-- C1 on a page with a live row (quantity 2, unit price 3) and a deleted row
(quantity 7, unit price 9): the subtotal is 6. -/
theorem subtotal_is_sum_over_live_rows_witness :
    ((∀ r ∈ (samplePage [sampleRow "2" "3" false, sampleRow "7" "9" true] "10" "1" "2").rows,
        isDeleted r = false →
          ∃ a b : ℕ, rowQuantity r = JSNum.fin a ∧ rowUnitPrice r = JSNum.fin b) ∧
      (((samplePage [sampleRow "2" "3" false, sampleRow "7" "9" true] "10" "1" "2").rows.filter
          (fun r => !isDeleted r)).map
            (fun r => (rowQuantity r).toRat * (rowUnitPrice r).toRat)).sum ≤ 2 ^ 53) ∧
      (calculateTotalsRun
          (samplePage [sampleRow "2" "3" false, sampleRow "7" "9" true] "10" "1" "2")).subtotal =
        JSNum.fin (2 * 3 + 0) := by
  have hnat : ∀ r ∈ (samplePage [sampleRow "2" "3" false, sampleRow "7" "9" true]
      "10" "1" "2").rows, isDeleted r = false →
        ∃ a b : ℕ, rowQuantity r = JSNum.fin a ∧ rowUnitPrice r = JSNum.fin b := by
    intro r hr hlive
    simp only [samplePage, List.mem_cons, List.mem_singleton, List.not_mem_nil, or_false] at hr
    rcases hr with rfl | rfl
    · exact ⟨2, 3, by simpa using rowQuantity_two "3" false,
        by simpa using rowUnitPrice_three "2" false⟩
    · rw [isDeleted_sampleRow] at hlive
      exact absurd hlive (by decide)
  have hval : (((samplePage [sampleRow "2" "3" false, sampleRow "7" "9" true]
      "10" "1" "2").rows.filter (fun r => !isDeleted r)).map
        (fun r => (rowQuantity r).toRat * (rowUnitPrice r).toRat)).sum = 2 * 3 + 0 := by
    simp [samplePage, List.filter_cons, isDeleted_sampleRow, rowQuantity_two,
      rowUnitPrice_three, JSNum.toRat]
  have hsum : (((samplePage [sampleRow "2" "3" false, sampleRow "7" "9" true]
      "10" "1" "2").rows.filter (fun r => !isDeleted r)).map
        (fun r => (rowQuantity r).toRat * (rowUnitPrice r).toRat)).sum ≤ 2 ^ 53 := by
    rw [hval]; norm_num
  refine ⟨⟨hnat, hsum⟩, ?_⟩
  have h := (subtotal_is_sum_over_live_rows
    (samplePage [sampleRow "2" "3" false, sampleRow "7" "9" true] "10" "1" "2")).2.2 hnat hsum
  rw [h, hval]

/-- C2: for every page whose tax-rate and discount fields parse to finite numbers
`t` and `d` (their sign plays no part), `calculateTotals` computes
`taxAmount = subtotal * t / 100` and `total = subtotal + subtotal * t / 100 - d`
with the operations of JavaScript numbers, where the subtotal is the sum over the
rows that are not deleted; the tax, discount and total display elements show these
values with two decimals. -/
theorem tax_and_total_formula (p : Page) (t d : ℚ)
    (ht : parseFloat p.taxRate = JSNum.fin t)
    (hd : parseFloat p.discountAmount = JSNum.fin d) :
    (calculateTotalsRun p).subtotal =
        ((p.rows.filter (fun r => !isDeleted r)).map
          (fun r => (rowQuantity r).mul (rowUnitPrice r))).foldl JSNum.add (JSNum.fin 0) ∧
      (calculateTotalsRun p).taxAmount =
        (((calculateTotalsRun p).subtotal.mul (JSNum.fin t)).div (JSNum.fin 100)) ∧
      (calculateTotalsRun p).discountAmount = JSNum.fin d ∧
      (calculateTotalsRun p).total =
        (((calculateTotalsRun p).subtotal.add
          (((calculateTotalsRun p).subtotal.mul (JSNum.fin t)).div (JSNum.fin 100))).sub
            (JSNum.fin d)) ∧
      (calculateTotalsRun p).page.taxDisplay =
        p.taxDisplay.map (fun _ => toFixed2
          (((calculateTotalsRun p).subtotal.mul (JSNum.fin t)).div (JSNum.fin 100))) ∧
      (calculateTotalsRun p).page.discountDisplay =
        p.discountDisplay.map (fun _ => toFixed2 (JSNum.fin d)) ∧
      (calculateTotalsRun p).page.totalDisplay =
        p.totalDisplay.map (fun _ => toFixed2
          (((calculateTotalsRun p).subtotal.add
            (((calculateTotalsRun p).subtotal.mul (JSNum.fin t)).div (JSNum.fin 100))).sub
              (JSNum.fin d))) := by
  have htax : (calculateTotalsRun p).taxAmount =
      (((calculateTotalsRun p).subtotal.mul (JSNum.fin t)).div (JSNum.fin 100)) := by
    simp [calculateTotalsRun, ht, JSNum.orElse_fin_zero]
  have hdisc : (calculateTotalsRun p).discountAmount = JSNum.fin d := by
    simp [calculateTotalsRun, hd, JSNum.orElse_fin_zero]
  have htot : (calculateTotalsRun p).total =
      (((calculateTotalsRun p).subtotal.add
        (((calculateTotalsRun p).subtotal.mul (JSNum.fin t)).div (JSNum.fin 100))).sub
          (JSNum.fin d)) := by
    simp [calculateTotalsRun, ht, hd, JSNum.orElse_fin_zero]
  refine ⟨calculateTotalsRun_subtotal p, htax, hdisc, htot, ?_, ?_, ?_⟩
  · rw [← htax]; simp [calculateTotalsRun]
  · rw [← hdisc]; simp [calculateTotalsRun]
  · rw [← htot]; simp [calculateTotalsRun]

/-- C2 on a page with one row of quantity 1 at unit price 20.1, tax rate `"5"` and
discount `"0"`: both fields parse to finite numbers, and the tax display shows
`"1.00"`, the binary64 value of 20.1 * 5 / 100 lying below 1.005. -/
theorem tax_and_total_formula_witness :
    (parseFloat (samplePage [sampleRow "1" "20.1" false] "5" "0" "1").taxRate = JSNum.fin 5 ∧
      parseFloat (samplePage [sampleRow "1" "20.1" false] "5" "0" "1").discountAmount =
        JSNum.fin 0) ∧
      (calculateTotalsRun
          (samplePage [sampleRow "1" "20.1" false] "5" "0" "1")).page.taxDisplay =
        some "1.00" := by
  have hzero : parseFloat (some "0") = JSNum.fin 0 := by
    simpa using parseFloat_natural "0" 0 (by norm_num) rfl
  refine ⟨⟨parseFloat_five, hzero⟩, ?_⟩
  rw [(tax_and_total_formula (samplePage [sampleRow "1" "20.1" false] "5" "0" "1")
    5 0 parseFloat_five hzero).2.2.2.2.1, subtotal_one_by_201, taxAmount_of_201_at_five,
    toFixed2_tax_of_201]
  rfl

/-! ## When `parseFloat` yields `NaN` -/

theorem JSNum.neg_eq_nan_iff (x : JSNum) : x.neg = JSNum.nan ↔ x = JSNum.nan := by
  cases x <;> simp [JSNum.neg]

theorem parseUnsignedDecimal_eq_nan_iff (u : List Char) :
    parseUnsignedDecimal u = JSNum.nan ↔ startsNumeral u = false := by
  unfold parseUnsignedDecimal startsNumeral
  by_cases hinf : "Infinity".toList.isPrefixOf u = true
  · rw [if_pos hinf, hinf, Bool.true_or]
    exact ⟨fun h => (by cases h), fun h => (by cases h)⟩
  · have hinf' : "Infinity".toList.isPrefixOf u = false := Bool.eq_false_iff.mpr hinf
    rw [if_neg hinf, hinf', Bool.false_or]
    cases u with
    | nil =>
      have h1 : ¬ ((([] : List Char).dropWhile isDecimalDigit).head? = some '.') := by
        simp
      rw [if_neg h1, if_pos (by rfl)]
      simp
    | cons c t =>
      by_cases hc : isDecimalDigit c = true
      · have htake : (c :: t).takeWhile isDecimalDigit ≠ [] := by
          rw [List.takeWhile_cons, if_pos hc]
          exact List.cons_ne_nil _ _
        show _ ↔ (isDecimalDigit c || _) = false
        rw [hc, Bool.true_or]
        constructor
        · intro h
          exfalso
          split at h
          · rw [if_neg (fun h' => htake h'.1)] at h
            exact roundDouble_ne_nan _ h
          · exact roundDouble_ne_nan _ h
        · intro h; cases h
      · have hc' : isDecimalDigit c = false := Bool.eq_false_iff.mpr hc
        have htake : (c :: t).takeWhile isDecimalDigit = [] := by
          rw [List.takeWhile_cons, if_neg hc]
        have hdrop : (c :: t).dropWhile isDecimalDigit = c :: t := by
          rw [List.dropWhile_cons, if_neg hc]
        show _ ↔ (isDecimalDigit c || _) = false
        rw [hc', Bool.false_or, htake, hdrop, List.head?_cons, List.tail_cons]
        by_cases hdot : c = '.'
        · subst hdot
          rw [if_pos rfl]
          cases t with
          | nil =>
            rw [if_pos ⟨rfl, rfl⟩]
            simp
          | cons d t' =>
            by_cases hd : isDecimalDigit d = true
            · have hfp : (d :: t').takeWhile isDecimalDigit ≠ [] := by
                rw [List.takeWhile_cons, if_pos hd]
                exact List.cons_ne_nil _ _
              rw [if_neg (fun h' => hfp h'.2)]
              constructor
              · intro h; exact absurd h (roundDouble_ne_nan _)
              · intro h
                simp [hd] at h
            · have hfp : (d :: t').takeWhile isDecimalDigit = [] := by
                rw [List.takeWhile_cons, if_neg hd]
              rw [if_pos ⟨rfl, hfp⟩]
              simp [hd]
        · have hne : ¬ (some c = some '.') := by
            intro h; exact hdot (Option.some.inj h)
          rw [if_neg hne, if_pos rfl]
          simp [hdot]

theorem parseFloatChars_eq_nan_iff (cs : List Char) :
    parseFloatChars cs = JSNum.nan ↔ hasNumericPrefix cs = false := by
  unfold parseFloatChars hasNumericPrefix
  by_cases h1 : (cs.dropWhile isJSWhiteSpace).head? = some '-'
  · rw [if_pos h1, if_pos (Or.inl h1), JSNum.neg_eq_nan_iff, parseUnsignedDecimal_eq_nan_iff]
  · rw [if_neg h1]
    by_cases h2 : (cs.dropWhile isJSWhiteSpace).head? = some '+'
    · rw [if_pos h2, if_pos (Or.inr h2), parseUnsignedDecimal_eq_nan_iff]
    · rw [if_neg h2, if_neg (by tauto), parseUnsignedDecimal_eq_nan_iff]

theorem parseFloat_eq_nan_iff (v : Option String) :
    parseFloat v = JSNum.nan ↔ noNumericPrefix v = true := by
  cases v with
  | none => simp [parseFloat_undefined, noNumericPrefix]
  | some s =>
    show parseFloatChars s.toList = JSNum.nan ↔ _
    rw [parseFloatChars_eq_nan_iff]
    simp [noNumericPrefix]

theorem toFixed2_120 : toFixed2 (JSNum.fin 120) = "120.00" := by
  rw [toFixed2_of_bounds 120 12000 (by norm_num) (by norm_num) (by norm_num) (by norm_num)]
  decide

/-- C3, as the claim states it, fails: the quantity `"12abc"` is no decimal number,
yet `calculateTotals` reads it as 12, not as 0; with unit price `"10"` the row gets
the line total `"120.00"` and the subtotal is 120. -/
theorem trailing_characters_are_ignored :
    rowQuantity (sampleRow "12abc" "10" false) = JSNum.fin 12 ∧
      lineTotals (calculateTotals (samplePage [sampleRow "12abc" "10" false] "0" "0" "1")) =
        [["120.00"]] ∧
      (calculateTotalsRun (samplePage [sampleRow "12abc" "10" false] "0" "0" "1")).subtotal =
        JSNum.fin 120 := by
  have hq : rowQuantity (sampleRow "12abc" "10" false) = JSNum.fin 12 := by
    rw [rowQuantity_sampleRow, parseFloat_numeric_prefix, JSNum.orElse_fin_zero]
  have hp : rowUnitPrice (sampleRow "12abc" "10" false) = JSNum.fin 10 := by
    rw [rowUnitPrice_sampleRow, parseFloat_ten, JSNum.orElse_fin_zero]
  have hl : rowLineTotal (sampleRow "12abc" "10" false) = JSNum.fin 120 := by
    rw [rowLineTotal, hq, hp]
    have := JSNum.mul_natCast 12 10 (by norm_num)
    simpa using this
  have hd : isDeleted (sampleRow "12abc" "10" false) = false := rfl
  refine ⟨hq, ?_, ?_⟩
  · have hrows : (calculateTotals (samplePage [sampleRow "12abc" "10" false] "0" "0" "1")).rows =
        [setLineTotal "120.00" (sampleRow "12abc" "10" false)] := by
      show (calculateTotalsRun _).page.rows = _
      rw [calculateTotalsRun_rows]
      simp [samplePage, rowAfter, hd, hl, toFixed2_120]
    rw [lineTotals, hrows]
    decide
  · rw [calculateTotalsRun_subtotal]
    have hadd := JSNum.add_natCast 0 120 (by norm_num)
    simp only [Nat.cast_zero, Nat.cast_ofNat, zero_add] at hadd
    simp [samplePage, List.filter_cons, hd, hl, hadd]

/-- C3, amended: a value with no numeric prefix (after leading white space and an
optional sign it starts with neither a digit, nor a point followed by a digit,
nor `Infinity`; the empty string and the value of an absent field are such
values) is exactly a value `parseFloat` turns into `NaN`, and `calculateTotals`
takes it as 0 at each of the four places it reads a number: the quantity and the
unit price of a row, the tax rate and the discount; and a row that is not
deleted, with quantity `""` and unit price `"10"`, gets the line total `"0.00"`. -/
theorem input_without_numeric_prefix_is_zero :
    (∀ v, parseFloat v = JSNum.nan ↔ noNumericPrefix v = true) ∧
      noNumericPrefix (some "") = true ∧
      (∀ row, noNumericPrefix (findVal isQuantityInput row) = true →
        rowQuantity row = JSNum.fin 0) ∧
      (∀ row, noNumericPrefix (findVal isUnitPriceInput row) = true →
        rowUnitPrice row = JSNum.fin 0) ∧
      (∀ p, noNumericPrefix p.taxRate = true →
        (calculateTotalsRun p).taxRate = JSNum.fin 0) ∧
      (∀ p, noNumericPrefix p.discountAmount = true →
        (calculateTotalsRun p).discountAmount = JSNum.fin 0) ∧
      (∀ row st, isDeleted row = false → findVal isQuantityInput row = some "" →
        findVal isUnitPriceInput row = some "10" →
        (eachRow st row).done = st.done ++ [setLineTotal "0.00" row] ∧
        (eachRow st row).subtotal = st.subtotal.add (JSNum.fin 0)) := by
  refine ⟨parseFloat_eq_nan_iff, by decide, ?_, ?_, ?_, ?_, ?_⟩
  · intro row h
    rw [rowQuantity, (parseFloat_eq_nan_iff _).mpr h, JSNum.orElse_nan]
  · intro row h
    rw [rowUnitPrice, (parseFloat_eq_nan_iff _).mpr h, JSNum.orElse_nan]
  · intro p h
    simp [calculateTotalsRun, (parseFloat_eq_nan_iff _).mpr h, JSNum.orElse_nan]
  · intro p h
    simp [calculateTotalsRun, (parseFloat_eq_nan_iff _).mpr h, JSNum.orElse_nan]
  · intro row st hlive hq hp
    have hq0 : rowQuantity row = JSNum.fin 0 := by
      rw [rowQuantity, hq, parseFloat_empty, JSNum.orElse_nan]
    have hp10 : rowUnitPrice row = JSNum.fin 10 := by
      rw [rowUnitPrice, hp, parseFloat_ten, JSNum.orElse_fin_zero]
    have hlt : (rowQuantity row).mul (rowUnitPrice row) = JSNum.fin 0 := by
      rw [hq0, hp10]
      have := JSNum.mul_natCast 0 10 (by norm_num)
      simpa using this
    simp [eachRow, hlive, hlt, toFixed2_zero]

/-- C3 on the row with quantity `""` and unit price `"10"`: the quantity has no
numeric prefix and is read as 0, and the line total is written as `"0.00"`. -/
theorem input_without_numeric_prefix_is_zero_witness :
    (noNumericPrefix (findVal isQuantityInput (sampleRow "" "10" false)) = true ∧
      isDeleted (sampleRow "" "10" false) = false ∧
      findVal isQuantityInput (sampleRow "" "10" false) = some "" ∧
      findVal isUnitPriceInput (sampleRow "" "10" false) = some "10") ∧
      rowQuantity (sampleRow "" "10" false) = JSNum.fin 0 ∧
      (eachRow { subtotal := JSNum.fin 0, done := [] }
        (sampleRow "" "10" false)).done = [] ++ [setLineTotal "0.00" (sampleRow "" "10" false)] :=
  ⟨⟨by decide, rfl, rfl, rfl⟩,
    input_without_numeric_prefix_is_zero.2.2.1 (sampleRow "" "10" false) (by decide),
    (input_without_numeric_prefix_is_zero.2.2.2.2.2.2 (sampleRow "" "10" false)
      { subtotal := JSNum.fin 0, done := [] } rfl rfl rfl).1⟩

/-! ## The identifier rewrite -/

theorem matchIndexAt_eq_some_iff (cs post : List Char) :
    matchIndexAt cs = some post ↔ IndexPatternAt cs [] (cs.tail.takeWhile isDecimalDigit) post := by
  cases cs with
  | nil => simp [matchIndexAt, IndexPatternAt]
  | cons c r =>
    have h1 := List.takeWhile_append_dropWhile isDecimalDigit r
    constructor
    · intro h
      simp only [matchIndexAt] at h
      split at h
      · rename_i hc
        obtain ⟨rfl, hne⟩ := hc
        split at h
        · rename_i d post' hdrop
          split at h
          · rename_i hd
            subst hd
            simp only [Option.some.injEq] at h
            subst h
            refine ⟨?_, hne, fun c hc => List.mem_takeWhile_imp hc⟩
            rw [hdrop] at h1
            simp only [List.nil_append, List.tail_cons, List.cons.injEq, true_and]
            simpa using h1.symm
          · exact absurd h (by simp)
        · exact absurd h (by simp)
      · exact absurd h (by simp)
    · rintro ⟨heq, hne, -⟩
      simp only [List.nil_append, List.cons_append, List.tail_cons, List.cons.injEq] at heq hne
      obtain ⟨hc, hr⟩ := heq
      subst hc
      have hdrop : r.dropWhile isDecimalDigit = '-' :: post := by
        have h2 : r.takeWhile isDecimalDigit ++ r.dropWhile isDecimalDigit =
            r.takeWhile isDecimalDigit ++ '-' :: post := by
          rw [h1]; simpa using hr
        exact List.append_cancel_left h2
      simp [matchIndexAt, hne, hdrop]

theorem indexPatternAt_nil_digits {cs ds post : List Char} (h : IndexPatternAt cs [] ds post) :
    ds = cs.tail.takeWhile isDecimalDigit := by
  obtain ⟨heq, _, hdig⟩ := h
  subst heq
  simp only [List.nil_append, List.cons_append, List.tail_cons]
  rw [List.takeWhile_append_of_pos hdig]
  simp [List.takeWhile_cons_of_neg (show ¬ isDecimalDigit '-' = true by decide)]

theorem matchIndexAt_of_pattern {cs ds post : List Char} (h : IndexPatternAt cs [] ds post) :
    matchIndexAt cs = some post := by
  rw [matchIndexAt_eq_some_iff, ← indexPatternAt_nil_digits h]
  exact h

theorem indexPatternAt_cons {c : Char} {r pre ds post : List Char}
    (h : IndexPatternAt r pre ds post) : IndexPatternAt (c :: r) (c :: pre) ds post := by
  obtain ⟨heq, hne, hdig⟩ := h
  exact ⟨by rw [heq]; rfl, hne, hdig⟩

theorem indexPatternAt_of_cons {c c' : Char} {r pre ds post : List Char}
    (h : IndexPatternAt (c :: r) (c' :: pre) ds post) : IndexPatternAt r pre ds post := by
  obtain ⟨heq, hne, hdig⟩ := h
  simp only [List.cons_append, List.cons.injEq] at heq
  exact ⟨heq.2, hne, hdig⟩

theorem replaceIndex_spec (repl s : List Char) :
    (∃ pre ds post, IndexPatternAt s pre ds post ∧
        (∀ pre' ds' post', IndexPatternAt s pre' ds' post' → pre.length ≤ pre'.length) ∧
        replaceIndex repl s = pre ++ repl ++ post) ∨
      ((∀ pre ds post, ¬ IndexPatternAt s pre ds post) ∧ replaceIndex repl s = s) := by
  induction s with
  | nil =>
    right
    refine ⟨?_, rfl⟩
    rintro pre ds post ⟨heq, _, _⟩
    simp at heq
  | cons c r ih =>
    cases hm : matchIndexAt (c :: r) with
    | some post =>
      left
      refine ⟨[], _, post, (matchIndexAt_eq_some_iff _ _).mp hm, fun _ _ _ _ => Nat.zero_le _, ?_⟩
      simp [replaceIndex, hm]
    | none =>
      have hno : ∀ ds post, ¬ IndexPatternAt (c :: r) [] ds post := by
        intro ds post h
        rw [matchIndexAt_of_pattern h] at hm
        exact absurd hm (by simp)
      rcases ih with ⟨pre, ds, post, hpat, hmin, hrep⟩ | ⟨hnone, hrep⟩
      · left
        refine ⟨c :: pre, ds, post, indexPatternAt_cons hpat, ?_, ?_⟩
        · intro pre' ds' post' h'
          cases pre' with
          | nil => exact absurd h' (hno ds' post')
          | cons c' pre'' =>
            have := hmin pre'' ds' post' (indexPatternAt_of_cons h')
            simpa using this
        · simp [replaceIndex, hm, hrep]
      · right
        refine ⟨?_, ?_⟩
        · intro pre' ds' post' h'
          cases pre' with
          | nil => exact hno ds' post' h'
          | cons c' pre'' => exact hnone pre'' ds' post' (indexPatternAt_of_cons h')
        · simp [replaceIndex, hm, hrep]

/-- C5: the identifier rewrite of add-row replaces, in an attribute value `s`, only
the first positional index pattern (the leftmost run of one or more digits between
two `-`) by the index `n`, written as `String(n)` writes it: the characters before
the pattern and after it, later patterns included, are unchanged; a value with no
such pattern is returned as it is. For an integer index of magnitude below
`2 ^ 53`, `String(n)` is its decimal numeral. -/
theorem rewriteIndex_replaces_first_pattern_only (n : JSNum) (s : String) :
    ((∃ pre ds post, IndexPatternAt s.toList pre ds post ∧
        (∀ pre' ds' post', IndexPatternAt s.toList pre' ds' post' →
          pre.length ≤ pre'.length) ∧
        (rewriteIndex n s).toList = pre ++ '-' :: numberToChars n ++ '-' :: post) ∨
      ((∀ pre ds post, ¬ IndexPatternAt s.toList pre ds post) ∧ rewriteIndex n s = s)) ∧
      (∀ k : ℤ, |k| < 2 ^ 53 → numberToChars (JSNum.fin (k : ℚ)) = intToChars k) := by
  refine ⟨?_, numberToChars_intCast⟩
  rcases replaceIndex_spec (indexSegment n) s.toList with
    ⟨pre, ds, post, hpat, hmin, hrep⟩ | ⟨hnone, hrep⟩
  · left
    refine ⟨pre, ds, post, hpat, hmin, ?_⟩
    show replaceIndex (indexSegment n) s.toList = _
    rw [hrep]
    simp [indexSegment]
  · right
    refine ⟨hnone, ?_⟩
    show String.mk (replaceIndex (indexSegment n) s.toList) = s
    rw [hrep]
    rfl

/-- C5 at the index 3: `String(3)` is `3`, so the pattern is replaced by `-3-`. -/
theorem rewriteIndex_replaces_first_pattern_only_witness :
    |(3 : ℤ)| < 2 ^ 53 ∧ numberToChars (JSNum.fin ((3 : ℤ) : ℚ)) = intToChars 3 :=
  ⟨by norm_num,
    (rewriteIndex_replaces_first_pattern_only (JSNum.fin 3) "items-0-quantity").2 3
      (by norm_num)⟩

/-! ## Evaluation of the add-item handler -/

theorem indexSegment_one : indexSegment (JSNum.fin 1) = ['-', '1', '-'] := by
  have h := numberToChars_natCast 1 (by norm_num)
  simp only [Nat.cast_one] at h
  rw [indexSegment, h]
  decide

theorem numberToChars_two : String.mk (numberToChars (JSNum.fin 2)) = "2" := by
  have h := numberToChars_natCast 2 (by norm_num)
  simp only [Nat.cast_ofNat] at h
  rw [h]
  decide

theorem add_one_one : (JSNum.fin 1).add (JSNum.fin 1) = JSNum.fin 2 := by
  have h := JSNum.add_natCast 1 1 (by norm_num)
  simp only [Nat.cast_one, Nat.reduceAdd, Nat.cast_ofNat] at h
  exact h

theorem parseInt_natural (s : String) (n : ℕ) (hn : n ≤ 2 ^ 53)
    (h : parseInt (some s) = roundDouble (n : ℚ)) : parseInt (some s) = JSNum.fin (n : ℚ) := by
  rw [h, roundDouble_natCast n hn]

theorem parseInt_one : parseInt (some "1") = JSNum.fin 1 := by
  simpa using parseInt_natural "1" 1 (by norm_num) rfl

theorem parseInt_zero : parseInt (some "0") = JSNum.fin 0 := by
  simpa using parseInt_natural "0" 0 (by norm_num) rfl

theorem ready_one (rows : List Row) (t d : String) :
    ready (samplePage rows t d "1") =
      { page := samplePage rows t d "1", formCount := JSNum.fin 1 } := by
  have h : (parseInt (samplePage rows t d "1").totalForms) = JSNum.fin 1 := parseInt_one
  simp [ready, h, JSNum.orElse, JSNum.truthy]

theorem addItemClick_rows (s : FormState) (first : Row) (rest : List Row)
    (hrows : s.page.rows = first :: rest) (hset : s.page.hasFormset = true) :
    (addItemClick s).page.rows =
      (first :: rest).map rowAfter ++ [rowAfter (newRow s.formCount first)] := by
  show (calculateTotalsRun (appendClone s).page).page.rows = _
  rw [calculateTotalsRun_rows]
  simp [appendClone, hrows, hset]

theorem addItemClick_formCount (s : FormState) :
    (addItemClick s).formCount = s.formCount.add (JSNum.fin 1) :=
  rfl

theorem addItemClick_totalForms (s : FormState) :
    (addItemClick s).page.totalForms =
      s.page.totalForms.map
        (fun _ => String.mk (numberToChars (s.formCount.add (JSNum.fin 1)))) :=
  rfl

theorem newRow_one_savedRow :
    newRow (JSNum.fin 1) savedRow = clonedSavedRow := by
  simp only [newRow, renumber, rewriteAttr, rewriteIndex, indexSegment_one]
  decide

theorem newRow_one_fixedRow :
    newRow (JSNum.fin 1) fixedRow = setLineTotal "0.00" clonedFixedRow := by
  simp only [newRow, renumber, rewriteAttr, rewriteIndex, indexSegment_one]
  decide

theorem rowAfter_savedRow : rowAfter savedRow = setLineTotal "0.00" savedRow := by
  have hd : isDeleted savedRow = true := rfl
  simp [rowAfter, hd]

theorem rowAfter_clonedSavedRow : rowAfter clonedSavedRow = clonedSavedRow := by
  have hd : isDeleted clonedSavedRow = false := rfl
  have hq : rowQuantity clonedSavedRow = JSNum.fin 0 := by
    have h : rowQuantity clonedSavedRow = (parseFloat (some "")).orElse (JSNum.fin 0) := rfl
    rw [h, parseFloat_empty, JSNum.orElse_nan]
  have hp : rowUnitPrice clonedSavedRow = JSNum.fin 0 := by
    have h : rowUnitPrice clonedSavedRow = (parseFloat (some "")).orElse (JSNum.fin 0) := rfl
    rw [h, parseFloat_empty, JSNum.orElse_nan]
  have hl : rowLineTotal clonedSavedRow = JSNum.fin 0 := by
    rw [rowLineTotal, hq, hp]
    have := JSNum.mul_natCast 0 0 (by norm_num)
    simpa using this
  have hset : setLineTotal "0.00" clonedSavedRow = clonedSavedRow := by decide
  simp [rowAfter, hd, hl, toFixed2_zero, hset]

theorem rowLineTotal_fixedRow : rowLineTotal fixedRow = JSNum.fin 10 := by
  have hq : rowQuantity fixedRow = (parseFloat (some "2")).orElse (JSNum.fin 0) := rfl
  have hp : rowUnitPrice fixedRow = (parseFloat (some "5")).orElse (JSNum.fin 0) := rfl
  rw [rowLineTotal, hq, hp, parseFloat_two, parseFloat_five, JSNum.orElse_fin_zero,
    JSNum.orElse_fin_zero]
  have := JSNum.mul_natCast 2 5 (by norm_num)
  simpa using this

theorem rowLineTotal_clonedFixedRow :
    rowLineTotal (setLineTotal "0.00" clonedFixedRow) = JSNum.fin 10 := by
  have hq : rowQuantity (setLineTotal "0.00" clonedFixedRow) =
      (parseFloat (some "2")).orElse (JSNum.fin 0) := rfl
  have hp : rowUnitPrice (setLineTotal "0.00" clonedFixedRow) =
      (parseFloat (some "5")).orElse (JSNum.fin 0) := rfl
  rw [rowLineTotal, hq, hp, parseFloat_two, parseFloat_five, JSNum.orElse_fin_zero,
    JSNum.orElse_fin_zero]
  have := JSNum.mul_natCast 2 5 (by norm_num)
  simpa using this

theorem rowAfter_fixedRow : rowAfter fixedRow = fixedRow := by
  have hd : isDeleted fixedRow = false := rfl
  have hset : setLineTotal "10.00" fixedRow = fixedRow := by decide
  simp [rowAfter, hd, rowLineTotal_fixedRow, toFixed2_ten, hset]

theorem rowAfter_clonedFixedRow :
    rowAfter (setLineTotal "0.00" clonedFixedRow) = clonedFixedRow := by
  have hd : isDeleted (setLineTotal "0.00" clonedFixedRow) = false := rfl
  have hset : setLineTotal "10.00" (setLineTotal "0.00" clonedFixedRow) = clonedFixedRow := by
    decide
  simp [rowAfter, hd, rowLineTotal_clonedFixedRow, toFixed2_ten, hset]

theorem toFixed2_twenty : toFixed2 (JSNum.fin 20) = "20.00" := by
  rw [toFixed2_of_bounds 20 2000 (by norm_num) (by norm_num) (by norm_num) (by norm_num)]
  decide

/-! ## Claims on the add-item handler -/

/-- C4 at a failing input: on a page whose only row carries quantity 2 and unit
price 5 in hidden inputs, with the hidden total-forms field at 1, the row the
add-item control appends keeps both values and shows the line total `"10.00"`,
not `"0.00"`; the `id` of its label still carries the index 0. The row is
appended after the existing one, FormCount becomes 2 and the hidden field
holds `"2"`. -/
theorem added_row_of_hidden_numbers_shows_ten :
    (addItemClick (ready (samplePage [fixedRow] "0" "0" "1"))).page.rows =
        [fixedRow, clonedFixedRow] ∧
      lineTotals (addItemClick (ready (samplePage [fixedRow] "0" "0" "1"))).page =
        [["10.00"], ["10.00"]] ∧
      clonedFixedRow.elems.map Elem.id =
        [some "label-0-quantity", some "id_items-1-quantity", some "id_items-1-unit_price",
          some "id_items-1-line_total", some "id_items-1-DELETE"] ∧
      (addItemClick (ready (samplePage [fixedRow] "0" "0" "1"))).formCount = JSNum.fin 2 ∧
      (addItemClick (ready (samplePage [fixedRow] "0" "0" "1"))).page.totalForms =
        some "2" := by
  have hrows : (addItemClick (ready (samplePage [fixedRow] "0" "0" "1"))).page.rows =
      [fixedRow, clonedFixedRow] := by
    rw [ready_one, addItemClick_rows _ fixedRow [] rfl rfl]
    simp only [List.map_cons, List.map_nil, List.cons_append, List.nil_append]
    rw [newRow_one_fixedRow, rowAfter_fixedRow, rowAfter_clonedFixedRow]
  refine ⟨hrows, ?_, by decide, ?_, ?_⟩
  · rw [lineTotals, hrows]
    decide
  · rw [ready_one, addItemClick_formCount]
    exact add_one_one
  · rw [ready_one, addItemClick_totalForms]
    show some (String.mk (numberToChars ((JSNum.fin 1).add (JSNum.fin 1)))) = some "2"
    rw [add_one_one, numberToChars_two]

/-- C8 at a failing input: on a page whose only row is a saved item with the
hidden `id` input holding `42`, with the hidden total-forms field at 1, the row
the add-item control appends still holds `42` in its hidden `id` input; already
the cleared template holds it. -/
theorem clone_keeps_hidden_input_value :
    (addItemClick (ready (samplePage [savedRow] "0" "0" "1"))).page.rows =
        [setLineTotal "0.00" savedRow, clonedSavedRow] ∧
      fieldInput InputType.hidden "items-1-id" "42" false false ∈ clonedSavedRow.elems ∧
      (∃ e ∈ (clearTemplate savedRow).elems,
        e.tag = Tag.input ∧ e.type = InputType.hidden ∧ e.value = "42") := by
  refine ⟨?_, by decide, by decide⟩
  rw [ready_one, addItemClick_rows _ savedRow [] rfl rfl]
  simp only [List.map_cons, List.map_nil, List.cons_append, List.nil_append]
  rw [newRow_one_savedRow, rowAfter_savedRow, rowAfter_clonedSavedRow]

/-- C10 at a failing input: on a page whose only row carries quantity 2 and unit
price 5 in hidden inputs, `calculateTotals` computes the subtotal 10 and shows
`"10.00"` before the addition, and the final `calculateTotals` call of the
add-item handler computes 20 and shows `"20.00"`. -/
theorem add_item_changes_subtotal_of_hidden_numbers :
    (calculateTotalsRun (samplePage [fixedRow] "0" "0" "1")).subtotal = JSNum.fin 10 ∧
      (calculateTotals (samplePage [fixedRow] "0" "0" "1")).subtotalDisplay = some "10.00" ∧
      (calculateTotalsRun
        (appendClone (ready (samplePage [fixedRow] "0" "0" "1"))).page).subtotal =
          JSNum.fin 20 ∧
      (addItemClick (ready (samplePage [fixedRow] "0" "0" "1"))).page.subtotalDisplay =
        some "20.00" := by
  have hd1 : isDeleted fixedRow = false := rfl
  have hd2 : isDeleted (setLineTotal "0.00" clonedFixedRow) = false := rfl
  have h10 : (JSNum.fin 0).add (JSNum.fin 10) = JSNum.fin 10 := by
    have := JSNum.add_natCast 0 10 (by norm_num)
    simpa using this
  have h20 : (JSNum.fin 10).add (JSNum.fin 10) = JSNum.fin 20 := by
    have := JSNum.add_natCast 10 10 (by norm_num)
    simp only [Nat.cast_ofNat, Nat.reduceAdd] at this
    exact this
  have hbefore : (calculateTotalsRun (samplePage [fixedRow] "0" "0" "1")).subtotal =
      JSNum.fin 10 := by
    rw [calculateTotalsRun_subtotal]
    simp only [samplePage, List.filter_cons, hd1, Bool.not_false, if_true, List.filter_nil,
      List.map_cons, List.map_nil, List.foldl_cons, List.foldl_nil, rowLineTotal_fixedRow, h10]
  have hrows : (appendClone (ready (samplePage [fixedRow] "0" "0" "1"))).page.rows =
      [fixedRow, setLineTotal "0.00" clonedFixedRow] := by
    rw [ready_one, ← newRow_one_fixedRow]
    rfl
  have hafter : (calculateTotalsRun
      (appendClone (ready (samplePage [fixedRow] "0" "0" "1"))).page).subtotal =
        JSNum.fin 20 := by
    rw [calculateTotalsRun_subtotal, hrows]
    simp only [List.filter_cons, hd1, hd2, Bool.not_false, if_true, List.filter_nil,
      List.map_cons, List.map_nil, List.foldl_cons, List.foldl_nil, rowLineTotal_fixedRow,
      rowLineTotal_clonedFixedRow, h10, h20]
  refine ⟨hbefore, ?_, hafter, ?_⟩
  · show (some "").map (fun _ => toFixed2
      (calculateTotalsRun (samplePage [fixedRow] "0" "0" "1")).subtotal) = some "10.00"
    rw [hbefore, toFixed2_ten]
    rfl
  · show ((appendClone (ready (samplePage [fixedRow] "0" "0" "1"))).page.subtotalDisplay).map
      (fun _ => toFixed2 (calculateTotalsRun
        (appendClone (ready (samplePage [fixedRow] "0" "0" "1"))).page).subtotal) = some "20.00"
    rw [hafter, toFixed2_twenty, ready_one]
    rfl

/-! ## Claims on `formCount` -/

/-- C9 at a failing input: with the hidden total-count field holding `0`,
FormCount is initialised to 1, not 0; after one activation of the add-item control
FormCount is 2 and the hidden field holds `"2"`, not 1. -/
theorem formCount_of_zero_forms_is_one :
    (ready (samplePage [] "0" "0" "0")).formCount = JSNum.fin 1 ∧
      (addItemClick (ready (samplePage [] "0" "0" "0"))).formCount = JSNum.fin 2 ∧
      (addItemClick (ready (samplePage [] "0" "0" "0"))).page.totalForms = some "2" := by
  have h0 : (ready (samplePage [] "0" "0" "0")).formCount = JSNum.fin 1 := by
    have h : parseInt (samplePage [] "0" "0" "0").totalForms = JSNum.fin 0 := parseInt_zero
    simp [ready, h, JSNum.orElse, JSNum.truthy]
  refine ⟨h0, ?_, ?_⟩
  · rw [addItemClick_formCount, h0]
    exact add_one_one
  · rw [addItemClick_totalForms, h0]
    show some (String.mk (numberToChars ((JSNum.fin 1).add (JSNum.fin 1)))) = some "2"
    rw [add_one_one, numberToChars_two]

/-! ## Claims on the ad click tracker -/

/-- C6, as the claim states it, fails: a click on an ad link whose container has
none of the ad metadata attributes still issues one POST, with the word
`undefined` as ad identifier and placement. -/
theorem click_in_container_without_metadata_posts :
    adLinkClick none
        { href := some "https://example.com/",
          container := some { adId := none, placement := none, invoiceId := none } } =
      [{ method := "POST", url := "/track-ad/",
         contentType := "application/x-www-form-urlencoded", csrfToken := "null",
         body := [("ad_id", "undefined"), ("placement", "undefined"),
           ("target_url", "https://example.com/"), ("context", "ad_click"),
           ("invoice_id", "")] }] := by
  decide

/-- C6, amended: a click on an ad link issues no tracking request exactly when the
link has no enclosing ad container; inside a container, whatever attributes it
has, the click issues exactly one request. -/
theorem no_request_iff_no_container (csrftoken : Option String) (link : AdLink) :
    (adLinkClick csrftoken link = [] ↔ link.container = none) ∧
      (link.container ≠ none ↔ (adLinkClick csrftoken link).length = 1) := by
  cases hc : link.container <;> simp [adLinkClick, hc]

/-- C7: a click on an ad link inside a container with ad identifier `a` and
placement `p` issues exactly one request, a POST to `/track-ad/`, whose body has
exactly the fields `ad_id = a`, `placement = p`, `target_url` = the href of the
link, `context = "ad_click"` and `invoice_id`, the invoice identifier of the
container when it has one and the empty string when it has none. -/
theorem click_posts_one_tracking_request (csrftoken : Option String) (href a p : String)
    (invoiceId : Option String) :
    ∃ req, adLinkClick csrftoken
        { href := some href,
          container := some { adId := some a, placement := some p, invoiceId := invoiceId } } =
          [req] ∧
      req.method = "POST" ∧ req.url = "/track-ad/" ∧
      req.body = [("ad_id", a), ("placement", p), ("target_url", href),
        ("context", "ad_click"), ("invoice_id", invoiceId.getD "")] := by
  refine ⟨_, rfl, rfl, rfl, ?_⟩
  cases invoiceId with
  | none => rfl
  | some i =>
    by_cases h : i = "" <;> simp [trackAdClick, strOr, fieldString, h]

end InvoiceMaker
